import Mathlib

/-!
Verification development for the Speak-Easy TTS orchestration core
(`src/core/ttsEngine.ts` and `src/core/geminiTTSConfig.ts`).

The TypeScript source is shallowly embedded: pure functions become Lean
functions; the engine's effectful operations become explicit state passing
over a file-system model, with an event trace recording hook invocations and
remote calls.  External collaborators (the Gemini remote service, the ffmpeg
transcoder, the filesystem primitives and the clock) are supplied through an
`Env` record, exactly at the boundary where the source consumes them.
Buffers are lists of byte values (`Nat < 256`); JavaScript string truthiness
is modelled explicitly wherever the source relies on it.
-/

set_option maxHeartbeats 1000000

/-! ## Catalog: `src/core/geminiTTSConfig.ts` -/

/-- Catalog entry of `GEMINI_TTS_VOICES`: a voice name and a style tag. -/
structure VoiceInfo where
  name : String
  description : String
deriving DecidableEq, Repr

/-- Catalog entry of `GEMINI_TTS_LANGUAGES`: a human label and a BCP-47 code. -/
structure LanguageInfo where
  language : String
  code : String
deriving DecidableEq, Repr

/-- The fixed voice catalog (`GEMINI_TTS_VOICES`). -/
def GEMINI_TTS_VOICES : List VoiceInfo :=
  [⟨"Zephyr", "Bright"⟩, ⟨"Puck", "Upbeat"⟩, ⟨"Charon", "Informative"⟩,
   ⟨"Kore", "Firm"⟩, ⟨"Fenrir", "Excitable"⟩, ⟨"Leda", "Youthful"⟩,
   ⟨"Orus", "Firm"⟩, ⟨"Aoede", "Breezy"⟩, ⟨"Callirrhoe", "Easy-going"⟩,
   ⟨"Autonoe", "Bright"⟩, ⟨"Enceladus", "Breathy"⟩, ⟨"Iapetus", "Clear"⟩,
   ⟨"Umbriel", "Easy-going"⟩, ⟨"Algieba", "Smooth"⟩, ⟨"Despina", "Smooth"⟩,
   ⟨"Erinome", "Clear"⟩, ⟨"Algenib", "Gravelly"⟩, ⟨"Rasalgethi", "Informative"⟩,
   ⟨"Laomedeia", "Upbeat"⟩, ⟨"Achernar", "Soft"⟩, ⟨"Alnilam", "Firm"⟩,
   ⟨"Schedar", "Even"⟩, ⟨"Gacrux", "Mature"⟩, ⟨"Pulcherrima", "Forward"⟩,
   ⟨"Achird", "Friendly"⟩, ⟨"Zubenelgenubi", "Casual"⟩, ⟨"Vindemiatrix", "Gentle"⟩,
   ⟨"Sadachbia", "Lively"⟩, ⟨"Sadaltager", "Knowledgeable"⟩, ⟨"Sulafat", "Warm"⟩]

/-- The fixed language catalog (`GEMINI_TTS_LANGUAGES`). -/
def GEMINI_TTS_LANGUAGES : List LanguageInfo :=
  [⟨"Arabic (Egyptian)", "ar-EG"⟩, ⟨"German (Germany)", "de-DE"⟩,
   ⟨"English (US)", "en-US"⟩, ⟨"Spanish (US)", "es-US"⟩,
   ⟨"French (France)", "fr-FR"⟩, ⟨"Hindi (India)", "hi-IN"⟩,
   ⟨"Indonesian (Indonesia)", "id-ID"⟩, ⟨"Italian (Italy)", "it-IT"⟩,
   ⟨"Japanese (Japan)", "ja-JP"⟩, ⟨"Korean (Korea)", "ko-KR"⟩,
   ⟨"Portuguese (Brazil)", "pt-BR"⟩, ⟨"Russian (Russia)", "ru-RU"⟩,
   ⟨"Dutch (Netherlands)", "nl-NL"⟩, ⟨"Polish (Poland)", "pl-PL"⟩,
   ⟨"Thai (Thailand)", "th-TH"⟩, ⟨"Turkish (Turkey)", "tr-TR"⟩,
   ⟨"Vietnamese (Vietnam)", "vi-VN"⟩, ⟨"Romanian (Romania)", "ro-RO"⟩,
   ⟨"Ukrainian (Ukraine)", "uk-UA"⟩, ⟨"Bengali (Bangladesh)", "bn-BD"⟩,
   ⟨"English (India)", "en-IN"⟩, ⟨"Marathi (India)", "mr-IN"⟩,
   ⟨"Tamil (India)", "ta-IN"⟩, ⟨"Telugu (India)", "te-IN"⟩]

/-- `isValidVoice`: exact, case-sensitive membership in the voice catalog. -/
def isValidVoice (voice : String) : Bool :=
  GEMINI_TTS_VOICES.any (fun v => v.name == voice)

/-- `isValidLanguage`: exact, case-sensitive membership in the language catalog. -/
def isValidLanguage (code : String) : Bool :=
  GEMINI_TTS_LANGUAGES.any (fun l => l.code == code)

/-- `getRandomVoice`: `GEMINI_TTS_VOICES[Math.floor(Math.random()*len)].name`.
The random draw is externalized as `randIdx`; the source index is always
in range, which the modulo reproduces. -/
def getRandomVoice (randIdx : Nat) : String :=
  (GEMINI_TTS_VOICES.getD (randIdx % GEMINI_TTS_VOICES.length) ⟨"", ""⟩).name

/-- JavaScript `toLowerCase`, modelled characterwise. -/
def jsToLower (s : String) : String := ⟨s.data.map Char.toLower⟩

/-- `suggestVoice`: first catalog voice whose lowercased name starts with the
lowercased input, recovered in original casing; `undefined` when none. -/
def suggestVoice (input : String) : Option String :=
  let voices := GEMINI_TTS_VOICES.map (fun v => jsToLower v.name)
  match voices.find? (fun v => (jsToLower input).data.isPrefixOf v.data) with
  | some m => (GEMINI_TTS_VOICES.find? (fun v => jsToLower v.name == m)).map (fun v => v.name)
  | none => none

/-- `suggestLanguage`: same policy over language codes. -/
def suggestLanguage (input : String) : Option String :=
  let langs := GEMINI_TTS_LANGUAGES.map (fun l => jsToLower l.code)
  match langs.find? (fun l => (jsToLower input).data.isPrefixOf l.data) with
  | some m => (GEMINI_TTS_LANGUAGES.find? (fun l => jsToLower l.code == m)).map (fun l => l.code)
  | none => none

/-! ## SHA-256 (Node `crypto.createHash('sha256')`)

The engine derives cache keys and file-name hashes with Node's SHA-256.
We embed FIPS 180-4 SHA-256 over byte lists, with 32-bit words as `Nat`
reduced modulo `2^32`. -/

/-- `2^32`, the word modulus. -/
def w32 : Nat := 4294967296

/-- Addition modulo `2^32`. -/
def add32 (a b : Nat) : Nat := (a + b) % w32

/-- Right rotation of a 32-bit word. -/
def rotr32 (n x : Nat) : Nat := ((x >>> n) ||| ((x <<< (32 - n)) % w32)) % w32

/-- SHA-256 `Ch(x,y,z)`. -/
def shaCh (x y z : Nat) : Nat := (x &&& y) ^^^ ((x ^^^ 4294967295) &&& z)

/-- SHA-256 `Maj(x,y,z)`. -/
def shaMaj (x y z : Nat) : Nat := (x &&& y) ^^^ (x &&& z) ^^^ (y &&& z)

/-- SHA-256 big sigma-0. -/
def bigSigma0 (x : Nat) : Nat := rotr32 2 x ^^^ rotr32 13 x ^^^ rotr32 22 x

/-- SHA-256 big sigma-1. -/
def bigSigma1 (x : Nat) : Nat := rotr32 6 x ^^^ rotr32 11 x ^^^ rotr32 25 x

/-- SHA-256 small sigma-0. -/
def smallSigma0 (x : Nat) : Nat := rotr32 7 x ^^^ rotr32 18 x ^^^ (x >>> 3)

/-- SHA-256 small sigma-1. -/
def smallSigma1 (x : Nat) : Nat := rotr32 17 x ^^^ rotr32 19 x ^^^ (x >>> 10)

/-- The 64 round constants of FIPS 180-4 (fractional parts of the cube roots
of the first 64 primes), written in decimal. -/
def SHA_K : List Nat :=
  [1116352408, 1899447441, 3049323471, 3921009573, 961987163,
   1508970993, 2453635748, 2870763221, 3624381080, 310598401,
   607225278, 1426881987, 1925078388, 2162078206, 2614888103,
   3248222580, 3835390401, 4022224774, 264347078, 604807628,
   770255983, 1249150122, 1555081692, 1996064986, 2554220882,
   2821834349, 2952996808, 3210313671, 3336571891, 3584528711,
   113926993, 338241895, 666307205, 773529912, 1294757372,
   1396182291, 1695183700, 1986661051, 2177026350, 2456956037,
   2730485921, 2820302411, 3259730800, 3345764771, 3516065817,
   3600352804, 4094571909, 275423344, 430227734, 506948616,
   659060556, 883997877, 958139571, 1322822218, 1537002063,
   1747873779, 1955562222, 2024104815, 2227730452, 2361852424,
   2428436474, 2756734187, 3204031479, 3329325298]

/-- The eight initial working values of SHA-256 (fractional parts of the
square roots of the first 8 primes), written in decimal. -/
def SHA_H0 : List Nat :=
  [1779033703, 3144134277, 1013904242, 2773480762, 1359893119,
   2600822924, 528734635, 1541459225]

/-- Big-endian byte expansion of a value into `n` bytes. -/
def toBytesBE : Nat → Nat → List Nat
  | 0, _ => []
  | n + 1, v => toBytesBE n (v / 256) ++ [v % 256]

/-- Packs consecutive groups of four bytes into big-endian 32-bit words. -/
def bytesToWords : List Nat → List Nat
  | b0 :: b1 :: b2 :: b3 :: rest => (((b0 * 256 + b1) * 256 + b2) * 256 + b3) :: bytesToWords rest
  | _ => []

/-- Message-schedule extension; the word list is kept most-recent-first. -/
def sha256ExtendLoop : Nat → List Nat → List Nat
  | 0, r => r
  | n + 1, r =>
    let nw := add32 (add32 (r.getD 15 0) (smallSigma0 (r.getD 14 0)))
                    (add32 (r.getD 6 0) (smallSigma1 (r.getD 1 0)))
    sha256ExtendLoop n (nw :: r)

/-- The 64-entry message schedule of one block. -/
def sha256Schedule (block16 : List Nat) : List Nat :=
  (sha256ExtendLoop 48 block16.reverse).reverse

/-- One compression round on the working state `[a,b,c,d,e,f,g,h]`. -/
def sha256Round (kw : Nat) : List Nat → List Nat
  | [a, b, c, d, e, f, g, h] =>
    let t1 := add32 h (add32 (bigSigma1 e) (add32 (shaCh e f g) kw))
    let t2 := add32 (bigSigma0 a) (shaMaj a b c)
    [add32 t1 t2, a, b, c, add32 d t1, e, f, g]
  | st => st

/-- Compression of a single 64-byte block into the running hash. -/
def sha256Compress (h : List Nat) (block : List Nat) : List Nat :=
  let w := sha256Schedule (bytesToWords block)
  let kw := (List.zip SHA_K w).map (fun p => add32 p.1 p.2)
  let st := kw.foldl (fun st kwi => sha256Round kwi st) h
  (List.zip h st).map (fun p => add32 p.1 p.2)

/-- FIPS 180-4 padding: `0x80`, zeros to 56 mod 64, then the 64-bit bit length. -/
def sha256Pad (msg : List Nat) : List Nat :=
  let len := msg.length
  let z := (64 + 56 - ((len + 1) % 64)) % 64
  msg ++ [128] ++ List.replicate z 0 ++ toBytesBE 8 (len * 8)

/-- Folds the compression function over consecutive 64-byte blocks. -/
def sha256Blocks (h : List Nat) : List Nat → List Nat
  | [] => h
  | x :: xs => sha256Blocks (sha256Compress h (x :: xs.take 63)) (xs.drop 63)
termination_by l => l.length
decreasing_by
  simp only [List.length_drop, List.length_cons]
  omega

/-- The 32-byte SHA-256 digest of a byte list. -/
def sha256 (msg : List Nat) : List Nat :=
  (sha256Blocks SHA_H0 (sha256Pad msg)).flatMap (toBytesBE 4)

/-- Lowercase hexadecimal digit. -/
def hexDigit (n : Nat) : Char := if n < 10 then Char.ofNat (48 + n) else Char.ofNat (87 + n)

/-- Lowercase hex rendering of a byte list (`digest('hex')`). -/
def bytesToHex (bs : List Nat) : String :=
  ⟨bs.flatMap (fun b => [hexDigit (b / 16), hexDigit (b % 16)])⟩

/-- Hex SHA-256 digest of a byte list. -/
def sha256Hex (msg : List Nat) : String := bytesToHex (sha256 msg)

/-- UTF-8 encoding of one character as byte values. -/
def utf8Bytes (c : Char) : List Nat :=
  let n := c.toNat
  if n < 128 then [n]
  else if n < 2048 then [192 + n / 64, 128 + n % 64]
  else if n < 65536 then [224 + n / 4096, 128 + (n / 64) % 64, 128 + n % 64]
  else [240 + n / 262144, 128 + (n / 4096) % 64, 128 + (n / 64) % 64, 128 + n % 64]

/-- UTF-8 bytes of a string, as fed to `hash.update` by Node. -/
def strBytes (s : String) : List Nat := s.data.flatMap utf8Bytes

/-- `TtsEngine.getCacheKey`: the hex SHA-256 digest accumulated from
`update(text); update(voice); update(language)`, i.e. the digest of the
unseparated concatenation of the three fields in that fixed order. -/
def getCacheKey (text voice language : String) : String :=
  sha256Hex (strBytes text ++ strBytes voice ++ strBytes language)


/-! ## Error taxonomy (`TtsEngineError`)

The source attaches a machine-readable `code` string to every engine error.
The codes are embedded as an enumeration; `codeString` recovers the literal
string of the source. Suggestions are embedded structurally (`Hint`) rather
than as formatted message strings. -/

/-- The `code` values carried by `TtsEngineError` in the source. -/
inductive ErrCode where
  | ttsError
  | noApiKey
  | fileMetadataError
  | invalidVoice
  | invalidLanguage
  | noText
  | noAudio
  | synthError
  | synthFileError
  | noFfmpeg
  | filenameError
deriving DecidableEq, Repr

/-- The literal `code` string of the source for each embedded code. -/
def ErrCode.codeString : ErrCode → String
  | .ttsError => "TTS_ERROR"
  | .noApiKey => "NO_API_KEY"
  | .fileMetadataError => "FILE_METADATA_ERROR"
  | .invalidVoice => "INVALID_VOICE"
  | .invalidLanguage => "INVALID_LANGUAGE"
  | .noText => "NO_TEXT"
  | .noAudio => "NO_AUDIO"
  | .synthError => "SYNTH_ERROR"
  | .synthFileError => "SYNTH_FILE_ERROR"
  | .noFfmpeg => "NO_FFMPEG"
  | .filenameError => "FILENAME_ERROR"

/-- The `suggestion` attached to an engine error, embedded structurally:
either a did-you-mean candidate from the prefix matcher, or one of the
fixed hint strings of the source. -/
inductive Hint where
  | didYouMean (name : String)
  | seeVoiceCatalog
  | seeLanguageCatalog
  | installFfmpeg
deriving DecidableEq, Repr

/-- A thrown JavaScript value: either a `TtsEngineError` (without or with a
wrapped `cause`) or a foreign error from a collaborator (`ext`). -/
inductive JsError where
  | ext (tag : Nat)
  | tts0 (message : String) (code : ErrCode) (suggestion : Option Hint)
  | ttsc (message : String) (code : ErrCode) (suggestion : Option Hint) (cause : JsError)
deriving DecidableEq, Repr

/-- The `code` field of a thrown value (`none` for foreign errors). -/
def JsError.codeOf : JsError → Option ErrCode
  | .ext _ => none
  | .tts0 _ c _ => some c
  | .ttsc _ c _ _ => some c

/-- The `cause` field of a thrown value. -/
def JsError.causeOf : JsError → Option JsError
  | .ttsc _ _ _ c => some c
  | _ => none

/-! ## Data model -/

/-- A file descriptor as returned by the remote file store, before the
mandatory-field validation: each identity field may be absent or empty. -/
structure RawFileMeta where
  name : Option String
  uri : Option String
  mimeType : Option String
deriving DecidableEq, Repr

/-- One entry of `options.file` / `options.files`: a raw name string to be
resolved through `getFile`, or an inline metadata object. -/
inductive FileRef where
  | path (s : String)
  | meta (m : RawFileMeta)
deriving DecidableEq, Repr

/-- One element of the `contents` payload sent to the remote service. -/
inductive ContentPart where
  | fileData (uri : String) (mimeType : String)
  | textPart (s : String)
deriving DecidableEq, Repr

/-- `TtsOptions` of the source (logger-independent fields). -/
structure TtsOptions where
  text : Option String
  voice : Option String
  fileName : Option String
  language : Option String
  file : Option FileRef
  files : Option (List FileRef)
  prompt : Option String
deriving DecidableEq, Repr

/-- The engine configuration after construction: `defaultVoice`,
`defaultLanguage`, `useCache`, and the resolved `cacheDir` / `outputDir`. -/
structure Config where
  defaultVoice : Option String
  defaultLanguage : Option String
  useCache : Bool
  cacheDir : String
  outputDir : String
deriving DecidableEq, Repr

/-- Result record of `synthesizeToBuffer` / `synthesizeFromFile`. -/
structure SynthResult where
  buffer : List Nat
  voice : String
  language : String
deriving DecidableEq, Repr

/-- Result record of `synthesizeToFile`. -/
structure FileResult where
  filePath : String
  voice : String
  language : String
deriving DecidableEq, Repr

/-! ## JavaScript truthiness helpers -/

/-- Truthiness of an optional string: `undefined` and `''` are falsy. -/
def strTruthy : Option String → Bool
  | none => false
  | some s => !(s == "")

/-- JavaScript `a || c` for an optional string `a` and fallback `c`. -/
def jsOrStr (a : Option String) (c : String) : String :=
  match a with
  | some s => if s == "" then c else s
  | none => c

/-- The source's text guard `!text || typeof text !== 'string' || text.length < 1`. -/
def textTruthy : Option String → Bool
  | none => false
  | some t => !(t.length == 0)

/-- Truthiness of one file entry: an empty path string is falsy, a metadata
object is always truthy. -/
def refTruthy : FileRef → Bool
  | .path s => !(s == "")
  | .meta _ => true

/-- Truthiness of `options.file || options.files` (an array is always truthy,
even when empty). -/
def mediaRequested (opts : TtsOptions) : Bool :=
  (match opts.file with | none => false | some r => refTruthy r) ||
  (match opts.files with | none => false | some _ => true)

/-! ## Event trace and environment -/

/-- Observable events of one engine call: lifecycle hook invocations, remote
service calls, and cache accesses. -/
inductive Ev where
  | beforeSynthesize
  | afterSynthesize (buffer : List Nat) (voice language : String)
  | onError (e : JsError)
  | remoteGenerate (parts : List ContentPart) (voice : String)
  | remoteGetFile (name : String)
  | cacheRead (path : String)
  | cacheWrite (path : String)
deriving DecidableEq, Repr

/-- Local filesystem model: an association list from path to byte content;
the most recent write for a path is listed first. -/
abbrev FS := List (String × List Nat)

/-- Path lookup (first, i.e. most recent, entry wins). -/
def fsLookup (fs : FS) (p : String) : Option (List Nat) :=
  (fs.find? (fun e => e.1 == p)).map (fun e => e.2)

/-- `writeFile`: record the new content for the path. -/
def fsInsert (fs : FS) (p : String) (b : List Nat) : FS := (p, b) :: fs

/-- `unlink`: drop every record of the path. -/
def fsErase (fs : FS) (p : String) : FS := fs.filter (fun e => !(e.1 == p))

/-- External collaborators of one engine call: the random draw, the clock
(`new Date().toISOString()`), the remote generate/getFile endpoints, and
fault injection for the local filesystem and the ffmpeg transcoder.
`generate parts voice` models `models.generateContent`: `Except.error`
is a transport throw/rejection, `.ok none` a response whose first
candidate's first content part carries no `inlineData`, and `.ok (some b)`
the base64-decoded inline audio bytes. A `some e` fault on a filesystem
field means the corresponding primitive throws `e`; `corruptPaths` are
paths whose `stat`/`readFile` throws. -/
structure Env where
  randIdx : Nat
  isoNow : String
  generate : List ContentPart → String → Except JsError (Option (List Nat))
  getFileResp : String → Except JsError RawFileMeta
  corruptPaths : List String
  mkdirCacheFail : Option JsError
  writeCacheFail : Option JsError
  mkdirOutFail : Option JsError
  writeRawFail : Option JsError
  ffmpegAvailable : Bool
  ffmpegConvertOk : Bool
  transcode : List Nat → List Nat
  writeFinalFail : Option JsError

/-- Joint result of one engine operation: the returned or thrown value, the
event trace, and the filesystem after the call. -/
structure Out (α : Type) where
  res : Except JsError α
  trace : List Ev
  fs : FS

/-! ## Error constructors of the source -/

/-- Suggestion attached to an `INVALID_VOICE` error. -/
def voiceHint (cv : String) : Hint :=
  match suggestVoice cv with
  | some s => .didYouMean s
  | none => .seeVoiceCatalog

/-- Suggestion attached to an `INVALID_LANGUAGE` error. -/
def languageHint (cl : String) : Hint :=
  match suggestLanguage cl with
  | some s => .didYouMean s
  | none => .seeLanguageCatalog

/-- The `INVALID_VOICE` error for a rejected candidate. -/
def invalidVoiceError (cv : String) : JsError :=
  .tts0 ("Voice " ++ cv ++ " is not supported.") .invalidVoice (some (voiceHint cv))

/-- The `INVALID_LANGUAGE` error for a rejected candidate. -/
def invalidLanguageError (cl : String) : JsError :=
  .tts0 ("Language " ++ cl ++ " is not supported.") .invalidLanguage (some (languageHint cl))

/-- The `NO_TEXT` error. -/
def noTextError : JsError := .tts0 "Text is required for TTS synthesis" .noText none

/-- The `NO_AUDIO` error. -/
def noAudioError : JsError := .tts0 "No audio data returned from Gemini API" .noAudio none

/-- The `SYNTH_ERROR` wrapper built in `synthesizeToBuffer`'s catch block. -/
def synthWrapError (cause : JsError) : JsError :=
  .ttsc "Failed to synthesize audio" .synthError none cause

/-- The `SYNTH_FILE_ERROR` wrapper built in `synthesizeFromFile`'s catch block. -/
def synthFileWrapError (cause : JsError) : JsError :=
  .ttsc "Failed to synthesize audio from file" .synthFileError none cause

/-- The `FILE_METADATA_ERROR` thrown inline by the content-assembly loop. -/
def fileMetaFieldsError : JsError :=
  .tts0 "File metadata is missing required fields" .fileMetadataError none

/-- The `FILE_METADATA_ERROR` thrown inside `getFile` for an incomplete
descriptor. -/
def getFileIncompleteError : JsError :=
  .tts0 "File metadata is incomplete" .fileMetadataError none

/-- The `NO_FFMPEG` error. -/
def noFfmpegError : JsError :=
  .tts0 "ffmpeg is required to convert audio. Please install ffmpeg." .noFfmpeg
    (some .installFfmpeg)

/-- The `FILENAME_ERROR` error. -/
def filenameTooLongError : JsError :=
  .tts0 "Generated filename is too long or invalid" .filenameError none

/-! ## Request resolver (`TtsEngine._resolveVoiceAndLanguage`) -/

/-- The voice candidate `options.voice || config.defaultVoice || getRandomVoice()`. -/
def voiceCandidate (cfg : Config) (opts : TtsOptions) (randIdx : Nat) : String :=
  jsOrStr opts.voice (jsOrStr cfg.defaultVoice (getRandomVoice randIdx))

/-- The language candidate `options.language || config.defaultLanguage || 'en-US'`. -/
def languageCandidate (cfg : Config) (opts : TtsOptions) : String :=
  jsOrStr opts.language (jsOrStr cfg.defaultLanguage "en-US")

/-- `_resolveVoiceAndLanguage`: validate the voice candidate, then the
language candidate, invoking `onError` and throwing on the first failure. -/
def resolveVoiceAndLanguage (cfg : Config) (randIdx : Nat) (opts : TtsOptions) :
    Except JsError (String × String) × List Ev :=
  let cv := voiceCandidate cfg opts randIdx
  if !isValidVoice cv then
    (.error (invalidVoiceError cv), [.onError (invalidVoiceError cv)])
  else
    let cl := languageCandidate cfg opts
    if !isValidLanguage cl then
      (.error (invalidLanguageError cl), [.onError (invalidLanguageError cl)])
    else
      (.ok (cv, cl), [])

/-! ## File store access (`TtsEngine.getFile`) -/

/-- The mandatory-field validation `!file.name || !file.uri || !file.mimeType`
(empty strings are falsy and therefore also rejected). -/
def metaComplete (m : RawFileMeta) : Bool :=
  strTruthy m.name && strTruthy m.uri && strTruthy m.mimeType

/-- `getFile`: fetch a descriptor by name; an incomplete descriptor throws
`FILE_METADATA_ERROR` inside the try block, so `onError` fires for it, and
a remote failure is passed to `onError` and rethrown unwrapped. -/
def getFileOp (env : Env) (name : String) : Except JsError RawFileMeta × List Ev :=
  match env.getFileResp name with
  | .error e => (.error e, [.remoteGetFile name, .onError e])
  | .ok raw =>
    if metaComplete raw then
      (.ok raw, [.remoteGetFile name])
    else
      (.error getFileIncompleteError, [.remoteGetFile name, .onError getFileIncompleteError])

/-! ## Content assembly (`synthesizeFromFile`, lines 1004-1022) -/

/-- `[file, ...(files || [])].filter(Boolean)`: flatten the single file and
the list into one ordered sequence, dropping falsy entries. -/
def buildFileList (file : Option FileRef) (files : Option (List FileRef)) : List FileRef :=
  ((match file with | none => [] | some f => [f]) ++ files.getD []).filter refTruthy

/-- The content-assembly loop: resolve each entry (fetching metadata for raw
strings through `getFile`), re-validate the three mandatory fields (throwing
`FILE_METADATA_ERROR` directly, without `onError`, when they are missing),
and push one uri+mimeType part per entry in order. -/
def assembleFileParts (env : Env) : List FileRef → Except JsError (List ContentPart) × List Ev
  | [] => (.ok [], [])
  | f :: rest =>
    let step : Except JsError RawFileMeta × List Ev :=
      match f with
      | .path s => getFileOp env s
      | .meta m => (.ok m, [])
    match step with
    | (.error e, evs) => (.error e, evs)
    | (.ok raw, evs) =>
      if metaComplete raw then
        match assembleFileParts env rest with
        | (.ok parts, evs2) =>
          (.ok (.fileData (raw.uri.getD "") (raw.mimeType.getD "") :: parts), evs ++ evs2)
        | (.error e, evs2) => (.error e, evs ++ evs2)
      else
        (.error fileMetaFieldsError, evs)

/-- The trailing text parts: the prompt when truthy, else the fixed
instruction when at least one file is present. -/
def promptParts (prompt : Option String) (fileList : List FileRef) : List ContentPart :=
  (if strTruthy prompt then [ContentPart.textPart (prompt.getD "")] else [])
    ++ (if !strTruthy prompt && !fileList.isEmpty then [ContentPart.textPart "Describe this file"]
        else [])

/-! ## Result cache (`getCacheKey` is defined above) -/

/-- `path.join(this.cacheDir, key + '.raw')`. -/
def cachePathOf (cfg : Config) (key : String) : String :=
  cfg.cacheDir ++ "/" ++ key ++ ".raw"

/-- `readFromCache`: disabled caching, a missing entry, and a throwing
`stat`/`readFile` (a corrupt path) all degrade to a miss; the surrounding
try/catch of the source makes this function total. -/
def readFromCache (env : Env) (cfg : Config) (fs : FS) (key : String) : Option (List Nat) :=
  if !cfg.useCache then none
  else
    let p := cachePathOf cfg key
    if env.corruptPaths.contains p then none
    else fsLookup fs p

/-- `writeToCache`: no-op when caching is disabled; otherwise `mkdir` of the
cache directory followed by `writeFile`, either of which may throw (the
source has no local handler, so the exception propagates to the caller). -/
def writeToCache (env : Env) (cfg : Config) (fs : FS) (key : String) (buffer : List Nat) :
    Except JsError FS :=
  if !cfg.useCache then .ok fs
  else
    match env.mkdirCacheFail with
    | some e => .error e
    | none =>
      match env.writeCacheFail with
      | some e => .error e
      | none => .ok (fsInsert fs (cachePathOf cfg key) buffer)

/-! ## Synthesis operations -/

/-- `synthesizeFromFile`: fire `beforeSynthesize`, resolve voice/language,
assemble the multimodal content, call the remote service, and extract the
inline audio. The `NO_AUDIO` throw sits inside the same try block as the
remote call, so the catch wraps it (like any other exception there) into a
`SYNTH_FILE_ERROR` and fires `onError` a second time. -/
def synthesizeFromFile (env : Env) (cfg : Config) (fs : FS) (opts : TtsOptions) :
    Out SynthResult :=
  let ev0 : List Ev := [.beforeSynthesize]
  match resolveVoiceAndLanguage cfg env.randIdx opts with
  | (.error e, evs) => ⟨.error e, ev0 ++ evs, fs⟩
  | (.ok (cv, cl), _) =>
    let fl := buildFileList opts.file opts.files
    match assembleFileParts env fl with
    | (.error e, evs) => ⟨.error e, ev0 ++ evs, fs⟩
    | (.ok fileParts, evs) =>
      let contentParts := fileParts ++ promptParts opts.prompt fl
      match env.generate contentParts cv with
      | .error cause =>
        let e := synthFileWrapError cause
        ⟨.error e, ev0 ++ evs ++ [.remoteGenerate contentParts cv, .onError e], fs⟩
      | .ok (some bytes) =>
        ⟨.ok ⟨bytes, cv, cl⟩,
          ev0 ++ evs ++ [.remoteGenerate contentParts cv, .afterSynthesize bytes cv cl], fs⟩
      | .ok none =>
        let eW := synthFileWrapError noAudioError
        ⟨.error eW,
          ev0 ++ evs ++ [.remoteGenerate contentParts cv, .onError noAudioError, .onError eW],
          fs⟩

/-- `synthesizeToBuffer`: delegate to `synthesizeFromFile` when file options
are present; otherwise fire `beforeSynthesize`, check the text, resolve
voice/language, consult the cache, call the remote service, and write the
cache after a fresh success. The cache write and the `NO_AUDIO` throw are
inside the try block, so their failures are wrapped as `SYNTH_ERROR`. -/
def synthesizeToBuffer (env : Env) (cfg : Config) (fs : FS) (opts : TtsOptions) :
    Out SynthResult :=
  if mediaRequested opts then synthesizeFromFile env cfg fs opts
  else
    let ev0 : List Ev := [.beforeSynthesize]
    if !textTruthy opts.text then
      ⟨.error noTextError, ev0 ++ [.onError noTextError], fs⟩
    else
      let t := opts.text.getD ""
      match resolveVoiceAndLanguage cfg env.randIdx opts with
      | (.error e, evs) => ⟨.error e, ev0 ++ evs, fs⟩
      | (.ok (cv, cl), _) =>
        let key := getCacheKey t cv cl
        let readEvs : List Ev := if cfg.useCache then [.cacheRead (cachePathOf cfg key)] else []
        match (if cfg.useCache then readFromCache env cfg fs key else none) with
        | some cached => ⟨.ok ⟨cached, cv, cl⟩, ev0 ++ readEvs, fs⟩
        | none =>
          let parts := [ContentPart.textPart t]
          match env.generate parts cv with
          | .error cause =>
            let e := synthWrapError cause
            ⟨.error e, ev0 ++ readEvs ++ [.remoteGenerate parts cv, .onError e], fs⟩
          | .ok (some bytes) =>
            if cfg.useCache then
              match writeToCache env cfg fs key bytes with
              | .ok fs2 =>
                ⟨.ok ⟨bytes, cv, cl⟩,
                  ev0 ++ readEvs ++ [.remoteGenerate parts cv, .afterSynthesize bytes cv cl,
                    .cacheWrite (cachePathOf cfg key)],
                  fs2⟩
              | .error cause =>
                let e := synthWrapError cause
                ⟨.error e,
                  ev0 ++ readEvs ++ [.remoteGenerate parts cv, .afterSynthesize bytes cv cl,
                    .onError e],
                  fs⟩
            else
              ⟨.ok ⟨bytes, cv, cl⟩,
                ev0 ++ [.remoteGenerate parts cv, .afterSynthesize bytes cv cl], fs⟩
          | .ok none =>
            let eW := synthWrapError noAudioError
            ⟨.error eW,
              ev0 ++ readEvs ++ [.remoteGenerate parts cv, .onError noAudioError, .onError eW],
              fs⟩

/-! ## Audio finishing (`createSafeFileName`, `synthesizeToFile`) -/

/-- `new Date().toISOString().replace(/[:.]/g, '-')`. -/
def tsSanitize (s : String) : String :=
  ⟨s.data.map (fun c => if c == ':' || c == '.' then '-' else c)⟩

/-- JavaScript `s.slice(0, n)`. -/
def jsTake (n : Nat) (s : String) : String := ⟨s.data.take n⟩

/-- Membership in `[a-z0-9]`. -/
def isLowerAlnum (c : Char) : Bool :=
  (97 ≤ c.toNat && c.toNat ≤ 122) || (48 ≤ c.toNat && c.toNat ≤ 57)

/-- `replace(/[^a-z0-9]+/g, '-')`: each maximal run of characters outside
`[a-z0-9]` becomes a single dash. -/
def collapseNonAlnum : List Char → List Char
  | [] => []
  | c :: rest =>
    if isLowerAlnum c then c :: collapseNonAlnum rest
    else '-' :: collapseNonAlnum (rest.dropWhile (fun d => !isLowerAlnum d))
termination_by l => l.length
decreasing_by
  · simp only [List.length_cons]
    omega
  · have h2 : (rest.dropWhile (fun d => !isLowerAlnum d)).length ≤ rest.length :=
      (List.dropWhile_suffix _).length_le
    simp only [List.length_cons]
    omega

/-- `replace(/^-|-$/g, '')` removes one leading dash: the leading half. -/
def stripLeadDash : List Char → List Char
  | '-' :: r => r
  | l => l

/-- `toLowerCase().replace(/[^a-z0-9]+/g,'-').replace(/^-|-$/g,'')`. -/
def sanitizeName (s : String) : String :=
  ⟨(stripLeadDash (stripLeadDash (collapseNonAlnum (jsToLower s).data)).reverse).reverse⟩

/-- `createSafeFileName`: `<sanitized(base[0,20]-voice)[0,50]>-<hash8>-<timestamp>.mp3`,
rejected with `FILENAME_ERROR` when empty or longer than 255. -/
def createSafeFileName (isoNow : String) (base voice : String) : Except JsError String :=
  let timestamp := tsSanitize isoNow
  let hash := jsTake 8 (sha256Hex (strBytes base))
  let sanitized := sanitizeName (jsTake 20 base ++ "-" ++ voice)
  let fileName := jsTake 50 sanitized ++ "-" ++ hash ++ "-" ++ timestamp ++ ".mp3"
  if fileName == "" || fileName.length > 255 then .error filenameTooLongError
  else .ok fileName

/-- `filePath.replace(/\.mp3$/, '.raw')`. -/
def replaceSuffixMp3Raw (p : String) : String :=
  if (".mp3").data.isSuffixOf p.data then ⟨p.data.take (p.data.length - 4) ++ (".raw").data⟩
  else p

/-- `synthesizeToFile`: run the buffer synthesis, build the output name,
write the raw bytes to the transient path, then convert via ffmpeg; a
conversion failure falls back to writing the raw bytes at the final path,
and the finally block always unlinks the transient file (ignoring errors).
Every failure reaching the outer catch fires `onError` once more before
rethrowing. -/
def synthesizeToFile (env : Env) (cfg : Config) (fs : FS) (opts : TtsOptions) :
    Out FileResult :=
  let inner : Out SynthResult :=
    if mediaRequested opts then synthesizeFromFile env cfg fs opts
    else synthesizeToBuffer env cfg fs opts
  match inner.res with
  | .error e => ⟨.error e, inner.trace ++ [.onError e], inner.fs⟩
  | .ok br =>
    match env.mkdirOutFail with
    | some e => ⟨.error e, inner.trace ++ [.onError e], inner.fs⟩
    | none =>
      match createSafeFileName env.isoNow
          (jsOrStr opts.fileName (jsOrStr (opts.text.map (fun t => jsTake 40 t)) "output"))
          br.voice with
      | .error e => ⟨.error e, inner.trace ++ [.onError e], inner.fs⟩
      | .ok fileName =>
        let filePath := cfg.outputDir ++ "/" ++ fileName
        let tempRawPath := replaceSuffixMp3Raw filePath
        match env.writeRawFail with
        | some e => ⟨.error e, inner.trace ++ [.onError e], inner.fs⟩
        | none =>
          let fs1 := fsInsert inner.fs tempRawPath br.buffer
          if !env.ffmpegAvailable then
            ⟨.error noFfmpegError,
              inner.trace ++ [.onError noFfmpegError, .onError noFfmpegError],
              fsErase fs1 tempRawPath⟩
          else if env.ffmpegConvertOk then
            ⟨.ok ⟨filePath, br.voice, br.language⟩, inner.trace,
              fsErase (fsInsert fs1 filePath (env.transcode br.buffer)) tempRawPath⟩
          else
            match env.writeFinalFail with
            | some e => ⟨.error e, inner.trace ++ [.onError e], fsErase fs1 tempRawPath⟩
            | none =>
              ⟨.ok ⟨filePath, br.voice, br.language⟩, inner.trace,
                fsErase (fsInsert fs1 filePath br.buffer) tempRawPath⟩

/-! ## Observation helpers for the theorems -/

/-- Number of `onError` hook invocations recorded in a trace. -/
def countOnError (tr : List Ev) : Nat :=
  tr.countP (fun ev => match ev with | .onError _ => true | _ => false)

/-- Whether a trace contains any remote-service call. -/
def hasRemoteEv (tr : List Ev) : Bool :=
  tr.any (fun ev =>
    match ev with
    | .remoteGenerate _ _ => true
    | .remoteGetFile _ => true
    | _ => false)

/-- The `code` values handed to `onError`, in invocation order (foreign
errors are dropped). -/
def onErrorCodes (tr : List Ev) : List ErrCode :=
  tr.filterMap (fun ev => match ev with | .onError e => e.codeOf | _ => none)

/-- Whether one file entry resolves successfully in the assembly loop of a
given environment. -/
def resolvedOk (env : Env) : FileRef → Bool
  | .path s =>
    (match env.getFileResp s with
     | .ok raw => metaComplete raw
     | .error _ => false)
  | .meta m => metaComplete m

/-- The uri+mimeType part produced for one successfully resolved entry. -/
def resolvedPart (env : Env) : FileRef → ContentPart
  | .path s =>
    (match env.getFileResp s with
     | .ok raw => .fileData (raw.uri.getD "") (raw.mimeType.getD "")
     | .error _ => .fileData "" "")
  | .meta m => .fileData (m.uri.getD "") (m.mimeType.getD "")

/-! ## Concrete instances used by closed theorems and witnesses -/

/-- Baseline environment: deterministic draw, a fixed clock, a remote service
returning one audio byte, no fault injection. -/
def envBase : Env :=
  { randIdx := 0
    isoNow := "2025-01-01T00:00:00.000Z"
    generate := fun _ _ => Except.ok (some [1])
    getFileResp := fun _ => Except.error (JsError.ext 0)
    corruptPaths := []
    mkdirCacheFail := none
    writeCacheFail := none
    mkdirOutFail := none
    writeRawFail := none
    ffmpegAvailable := true
    ffmpegConvertOk := true
    transcode := fun b => b
    writeFinalFail := none }

/-- Environment whose remote response carries no inline audio payload. -/
def envNoAudio : Env := { envBase with generate := fun _ _ => Except.ok none }

/-- Environment whose cache-file write throws a foreign filesystem error. -/
def envCacheWriteFail : Env :=
  { envBase with
    generate := fun _ _ => Except.ok (some [7, 7])
    writeCacheFail := some (JsError.ext 1) }

/-- Environment for the idempotence witness: audio `[1, 2, 3]`. -/
def envAudio123 : Env := { envBase with generate := fun _ _ => Except.ok (some [1, 2, 3]) }

/-- Environment for the transcoder-fallback witness: audio `[9, 9]`, ffmpeg
present but failing to convert. -/
def envConvFail : Env :=
  { envBase with
    generate := fun _ _ => Except.ok (some [9, 9])
    ffmpegConvertOk := false }

/-- Environment for the assembly witness: the file store resolves `"f2"`. -/
def envStore : Env :=
  { envBase with
    getFileResp := fun s =>
      if s == "f2" then Except.ok ⟨some "f2", some "uri2", some "audio/wav"⟩
      else Except.error (JsError.ext 0) }

/-- Engine configuration with caching disabled (the constructor defaults). -/
def cfgPlain : Config :=
  { defaultVoice := none
    defaultLanguage := none
    useCache := false
    cacheDir := "data/tts/cache"
    outputDir := "data/tts" }

/-- Engine configuration with caching enabled. -/
def cfgCache : Config := { cfgPlain with useCache := true }

/-- A plain valid text request. -/
def optsText : TtsOptions :=
  { text := some "hi", voice := some "Puck", fileName := none, language := some "en-US",
    file := none, files := none, prompt := none }

/-- A media request with one complete inline descriptor. -/
def optsMediaOk : TtsOptions :=
  { text := none, voice := some "Puck", fileName := none, language := some "en-US",
    file := some (.meta ⟨some "fileA", some "uriA", some "audio/mpeg"⟩),
    files := none, prompt := none }

/-- A media request whose inline descriptor misses every mandatory field. -/
def optsBadMeta : TtsOptions :=
  { text := none, voice := some "Puck", fileName := none, language := some "en-US",
    file := some (.meta ⟨none, none, none⟩), files := none, prompt := none }

/-- A request without text (and without files). -/
def optsEmpty : TtsOptions :=
  { text := none, voice := some "Puck", fileName := none, language := some "en-US",
    file := none, files := none, prompt := none }

/-- A request with an invalid voice, taken from the specification scenario. -/
def optsBadVoice : TtsOptions :=
  { text := some "hi", voice := some "NotARealVoice", fileName := none,
    language := some "en-US", file := none, files := none, prompt := none }

/-- A media request with an inline descriptor plus a named file, no prompt. -/
def optsTwoFiles : TtsOptions :=
  { text := none, voice := some "Puck", fileName := none, language := some "en-US",
    file := some (.meta ⟨some "fileA", some "uriA", some "audio/mpeg"⟩),
    files := some [.path "f2"], prompt := none }

/-- The idempotence witness request. -/
def optsCacheMe : TtsOptions :=
  { text := some "Cache me", voice := some "Puck", fileName := none,
    language := some "en-US", file := none, files := none, prompt := none }

/-- Number of remote synthesis calls recorded in a trace. -/
def countRemoteGenerate (tr : List Ev) : Nat :=
  tr.countP (fun ev => match ev with | .remoteGenerate _ _ => true | _ => false)

/-! # Theorems -/

/-! ## Shared auxiliary lemmas -/

/-- Looking up a path immediately after writing it yields the written bytes. -/
theorem fsLookup_insert (fs : FS) (p : String) (b : List Nat) :
    fsLookup (fsInsert fs p b) p = some b := by
  simp [fsLookup, fsInsert, List.find?_cons]

/-- After `unlink p`, looking up `p` is a miss. -/
theorem fsLookup_erase_self (fs : FS) (p : String) : fsLookup (fsErase fs p) p = none := by
  induction fs with
  | nil => rfl
  | cons e rest ih =>
    by_cases h : e.1 = p
    · simp only [fsErase, List.filter_cons, h, beq_self_eq_true, Bool.not_true, if_neg,
        Bool.false_eq_true, not_false_eq_true, ite_false]
      exact ih
    · have hb : (e.1 == p) = false := beq_eq_false_iff_ne.mpr h
      simp only [fsErase, List.filter_cons, hb, Bool.not_false, ite_true, fsLookup,
        List.find?_cons, hb]
      exact ih

/-- Erasing a path leaves entries with a different key at the front. -/
theorem fsErase_cons_ne (a : String × List Nat) (rest : FS) (q : String)
    (hb : (a.1 == q) = false) : fsErase (a :: rest) q = a :: fsErase rest q := by
  simp [fsErase, List.filter_cons, hb]

/-- Looking up the key of the head entry. -/
theorem fsLookup_cons_self (a : String) (b : List Nat) (rest : FS) :
    fsLookup ((a, b) :: rest) a = some b := by
  simp [fsLookup, List.find?_cons]

/-- A valid voice name is never the empty string. -/
theorem isValidVoice_ne_empty {v : String} (h : isValidVoice v = true) : (v == "") = false := by
  cases hb : (v == "") with
  | false => rfl
  | true =>
    have hv : v = "" := by simpa using hb
    subst hv
    exact absurd h (by decide)

/-- A valid language code is never the empty string. -/
theorem isValidLanguage_ne_empty {l : String} (h : isValidLanguage l = true) :
    (l == "") = false := by
  cases hb : (l == "") with
  | false => rfl
  | true =>
    have hl : l = "" := by simpa using hb
    subst hl
    exact absurd h (by decide)

/-- When both candidates validate, the resolver returns them with no events. -/
theorem resolver_ok_of_valid (cfg : Config) (i : Nat) (opts : TtsOptions)
    (hv : isValidVoice (voiceCandidate cfg opts i) = true)
    (hl : isValidLanguage (languageCandidate cfg opts) = true) :
    resolveVoiceAndLanguage cfg i opts =
      (.ok (voiceCandidate cfg opts i, languageCandidate cfg opts), []) := by
  simp [resolveVoiceAndLanguage, hv, hl]

/-- When the voice candidate fails validation, the resolver throws
`INVALID_VOICE` after one `onError`. -/
theorem resolver_invalid_voice (cfg : Config) (i : Nat) (opts : TtsOptions)
    (hv : isValidVoice (voiceCandidate cfg opts i) = false) :
    resolveVoiceAndLanguage cfg i opts =
      (.error (invalidVoiceError (voiceCandidate cfg opts i)),
       [.onError (invalidVoiceError (voiceCandidate cfg opts i))]) := by
  simp [resolveVoiceAndLanguage, hv]

/-- When the voice candidate validates but the language candidate fails, the
resolver throws `INVALID_LANGUAGE` after one `onError`. -/
theorem resolver_invalid_language (cfg : Config) (i : Nat) (opts : TtsOptions)
    (hv : isValidVoice (voiceCandidate cfg opts i) = true)
    (hl : isValidLanguage (languageCandidate cfg opts) = false) :
    resolveVoiceAndLanguage cfg i opts =
      (.error (invalidLanguageError (languageCandidate cfg opts)),
       [.onError (invalidLanguageError (languageCandidate cfg opts))]) := by
  simp [resolveVoiceAndLanguage, hv, hl]

/-! ## C3: cache-key purity and injectivity -/

/-- C3 (counterexample): `getCacheKey` is not injective on triples. The digest
runs over the unseparated concatenation `text ‖ voice ‖ language`, so the
distinct triples `("ab","c","en-US")` and `("a","bc","en-US")` collide. -/
theorem getCacheKey_not_injective_counterexample :
    getCacheKey "ab" "c" "en-US" = getCacheKey "a" "bc" "en-US" ∧
      ("ab", "c", "en-US") ≠ (("a", "bc", "en-US") : String × String × String) := by
  constructor
  · have h : strBytes "ab" ++ strBytes "c" ++ strBytes "en-US"
        = strBytes "a" ++ strBytes "bc" ++ strBytes "en-US" := by decide
    unfold getCacheKey
    rw [h]
  · decide

/-- C3 (amended): `getCacheKey` is a pure function of the triple, determined
exactly by the byte concatenation `text ‖ voice ‖ language`: identical
triples always yield identical keys, and any two triples with the same
concatenation (even componentwise-different ones) yield the same key. -/
theorem getCacheKey_determined_by_concatenation
    (t v l t2 v2 l2 : String)
    (h : strBytes t ++ strBytes v ++ strBytes l = strBytes t2 ++ strBytes v2 ++ strBytes l2) :
    getCacheKey t v l = getCacheKey t2 v2 l2 := by
  unfold getCacheKey
  rw [h]

/-- Witness for the amended C3 theorem at a concrete colliding pair. -/
theorem getCacheKey_determined_by_concatenation_witness :
    strBytes "ab" ++ strBytes "c" ++ strBytes "en-US"
        = strBytes "a" ++ strBytes "bc" ++ strBytes "en-US" ∧
      getCacheKey "ab" "c" "en-US" = getCacheKey "a" "bc" "en-US" :=
  ⟨by decide, getCacheKey_determined_by_concatenation "ab" "c" "en-US" "a" "bc" "en-US" (by decide)⟩

/-! ## C1: a response without inline audio -/

/-- C1 (code bug evaluation): when the remote response has no inline audio in
the first candidate's first part, the engine builds the `NO_AUDIO` error and
hands it to `onError`, but the throw happens inside the try block, so the
catch wraps it: the caller observes `SYNTH_ERROR` (text path) resp.
`SYNTH_FILE_ERROR` (media path) with the `NO_AUDIO` error only as `cause`,
and `onError` fires twice. -/
theorem noAudio_wrapped_as_synthError_eval :
    (synthesizeToBuffer envNoAudio cfgPlain [] optsText).res
        = .error (synthWrapError noAudioError) ∧
      (synthesizeFromFile envNoAudio cfgPlain [] optsMediaOk).res
        = .error (synthFileWrapError noAudioError) ∧
      onErrorCodes (synthesizeToBuffer envNoAudio cfgPlain [] optsText).trace
        = [.noAudio, .synthError] ∧
      (synthWrapError noAudioError).codeOf = some .synthError ∧
      (synthWrapError noAudioError).causeOf = some noAudioError ∧
      noAudioError.codeOf = some .noAudio :=
  ⟨rfl, rfl, rfl, rfl, rfl, rfl⟩

/-! ## C2: a failing cache write -/

/-- C2 (code bug evaluation): with caching enabled and the remote service
returning audio, a throwing cache-file write propagates out of `writeToCache`
into the try block of `synthesizeToBuffer`, so the whole synthesis fails
with `SYNTH_ERROR` wrapping the filesystem error, even though
`afterSynthesize` already fired with the valid buffer. -/
theorem cacheWriteFailure_fails_synthesis_eval :
    (synthesizeToBuffer envCacheWriteFail cfgCache [] optsText).res
        = .error (synthWrapError (.ext 1)) ∧
      Ev.afterSynthesize [7, 7] "Puck" "en-US"
        ∈ (synthesizeToBuffer envCacheWriteFail cfgCache [] optsText).trace := by
  refine ⟨rfl, ?_⟩
  decide

/-! ## C6: cache round-trip and miss behaviour -/

/-- With caching enabled, a read reduces to the corruption check plus lookup. -/
theorem readFromCache_of_useCache_true (env : Env) (cfg : Config) (fs : FS) (key : String)
    (hcu : cfg.useCache = true) :
    readFromCache env cfg fs key =
      (if env.corruptPaths.contains (cachePathOf cfg key) then none
       else fsLookup fs (cachePathOf cfg key)) := by
  unfold readFromCache
  rw [hcu]
  rfl

/-- With caching disabled, every read is a miss. -/
theorem readFromCache_of_useCache_false (env : Env) (cfg : Config) (fs : FS) (key : String)
    (hcu : cfg.useCache = false) : readFromCache env cfg fs key = none := by
  unfold readFromCache
  rw [hcu]
  rfl

/-- A successful cache write with caching enabled records the bytes at the
addressed path. -/
theorem writeToCache_ok_elim (env : Env) (cfg : Config) (fs fs2 : FS) (key : String)
    (buf : List Nat)
    (hw : writeToCache env cfg fs key buf = .ok fs2)
    (hcu : cfg.useCache = true) :
    fs2 = fsInsert fs (cachePathOf cfg key) buf := by
  unfold writeToCache at hw
  rw [hcu] at hw
  cases hmk : env.mkdirCacheFail with
  | some e => rw [hmk] at hw; simp at hw
  | none =>
    rw [hmk] at hw
    cases hwc : env.writeCacheFail with
    | some e => rw [hwc] at hw; simp at hw
    | none =>
      rw [hwc] at hw
      simpa using hw.symm

/-- C6: with caching enabled, a successful `writeToCache` for key `K`
followed by `readFromCache` of `K` returns the byte-identical content; and a
read of a key whose addressed file is absent, or whose read throws (a corrupt
path), degrades to a miss (`none`) rather than an error — `readFromCache` is
total by construction, mirroring its catch-all handler. -/
theorem cache_roundtrip_and_miss (env : Env) (cfg : Config) (fs fs2 : FS) (key : String)
    (buf : List Nat)
    (hw : writeToCache env cfg fs key buf = .ok fs2)
    (hcu : cfg.useCache = true)
    (hcorr : env.corruptPaths.contains (cachePathOf cfg key) = false) :
    readFromCache env cfg fs2 key = some buf ∧
      (∀ fsA k2, env.corruptPaths.contains (cachePathOf cfg k2) = true →
        readFromCache env cfg fsA k2 = none) ∧
      (∀ fsA k2, fsLookup fsA (cachePathOf cfg k2) = none →
        readFromCache env cfg fsA k2 = none) := by
  refine ⟨?_, ?_, ?_⟩
  · have h2 := writeToCache_ok_elim env cfg fs fs2 key buf hw hcu
    subst h2
    rw [readFromCache_of_useCache_true env cfg _ key hcu, hcorr]
    simp [fsLookup_insert]
  · intro fsA k2 hc
    cases hcu2 : cfg.useCache with
    | false => exact readFromCache_of_useCache_false env cfg fsA k2 hcu2
    | true =>
      rw [readFromCache_of_useCache_true env cfg fsA k2 hcu2, hc]
      simp
  · intro fsA k2 hmiss
    cases hcu2 : cfg.useCache with
    | false => exact readFromCache_of_useCache_false env cfg fsA k2 hcu2
    | true =>
      rw [readFromCache_of_useCache_true env cfg fsA k2 hcu2]
      cases hc2 : env.corruptPaths.contains (cachePathOf cfg k2) with
      | false => simpa using hmiss
      | true => simp

/-- Witness for C6 at a concrete write/read pair. -/
theorem cache_roundtrip_and_miss_witness :
    writeToCache envBase cfgCache [] "k" [1, 2, 3]
        = .ok [("data/tts/cache/k.raw", [1, 2, 3])] ∧
      readFromCache envBase cfgCache [("data/tts/cache/k.raw", [1, 2, 3])] "k"
        = some [1, 2, 3] :=
  ⟨rfl, (cache_roundtrip_and_miss envBase cfgCache [] [("data/tts/cache/k.raw", [1, 2, 3])]
    "k" [1, 2, 3] rfl rfl rfl).1⟩

/-! ## C10: `createSafeFileName` totality and bounds -/

/-- A JavaScript slice never exceeds its requested length. -/
theorem jsTake_length_le (n : Nat) (s : String) : (jsTake n s).length ≤ n := by
  show (s.data.take n).length ≤ n
  simp [List.length_take]

/-- Character substitution preserves the timestamp length. -/
theorem tsSanitize_length (s : String) : (tsSanitize s).length = s.length := by
  show (s.data.map _).length = s.data.length
  simp

/-- `createSafeFileName` succeeds on every input whose clock string has the
fixed ISO length, returning exactly the assembled name. -/
theorem createSafeFileName_ok (isoNow base voice : String) (h : isoNow.length = 24) :
    createSafeFileName isoNow base voice =
      .ok (jsTake 50 (sanitizeName (jsTake 20 base ++ "-" ++ voice)) ++ "-" ++
        jsTake 8 (sha256Hex (strBytes base)) ++ "-" ++ tsSanitize isoNow ++ ".mp3") := by
  have hts : (tsSanitize isoNow).length = 24 := by rw [tsSanitize_length, h]
  have h50 := jsTake_length_le 50 (sanitizeName (jsTake 20 base ++ "-" ++ voice))
  have h8 := jsTake_length_le 8 (sha256Hex (strBytes base))
  have hdash : ("-" : String).length = 1 := rfl
  have hmp3 : (".mp3" : String).length = 4 := rfl
  have hlen : (jsTake 50 (sanitizeName (jsTake 20 base ++ "-" ++ voice)) ++ "-" ++
      jsTake 8 (sha256Hex (strBytes base)) ++ "-" ++ tsSanitize isoNow ++ ".mp3").length ≤ 88 := by
    simp only [String.length_append, hts, hdash, hmp3]
    omega
  have hpos : 1 ≤ (jsTake 50 (sanitizeName (jsTake 20 base ++ "-" ++ voice)) ++ "-" ++
      jsTake 8 (sha256Hex (strBytes base)) ++ "-" ++ tsSanitize isoNow ++ ".mp3").length := by
    simp only [String.length_append, hts, hdash, hmp3]
    omega
  have hne : ((jsTake 50 (sanitizeName (jsTake 20 base ++ "-" ++ voice)) ++ "-" ++
      jsTake 8 (sha256Hex (strBytes base)) ++ "-" ++ tsSanitize isoNow ++ ".mp3") == "") = false := by
    refine beq_eq_false_iff_ne.mpr (fun he => ?_)
    rw [he] at hpos
    exact absurd hpos (by decide)
  have hdec : decide ((jsTake 50 (sanitizeName (jsTake 20 base ++ "-" ++ voice)) ++ "-" ++
      jsTake 8 (sha256Hex (strBytes base)) ++ "-" ++ tsSanitize isoNow ++ ".mp3").length > 255)
      = false := decide_eq_false (by omega)
  simp only [createSafeFileName]
  rw [hne, hdec]
  rfl

/-- C10: `createSafeFileName` never throws: for every base and voice string
(given the fixed 24-character ISO clock string), the generated name is
non-empty, ends in `.mp3`, and is at most 88 characters — far below the
255-character guard, so the `FILENAME_ERROR` branch is unreachable. -/
theorem createSafeFileName_total_and_bounded (isoNow base voice : String)
    (h : isoNow.length = 24) :
    ∃ name, createSafeFileName isoNow base voice = .ok name ∧
      name ≠ "" ∧ name.length ≤ 88 ∧ name.length < 255 ∧
      List.IsSuffix (".mp3").data name.data := by
  refine ⟨_, createSafeFileName_ok isoNow base voice h, ?_, ?_, ?_, ?_⟩
  · have hts : (tsSanitize isoNow).length = 24 := by rw [tsSanitize_length, h]
    intro he
    have hpos : 1 ≤ (jsTake 50 (sanitizeName (jsTake 20 base ++ "-" ++ voice)) ++ "-" ++
        jsTake 8 (sha256Hex (strBytes base)) ++ "-" ++ tsSanitize isoNow ++ ".mp3").length := by
      simp only [String.length_append, hts]
      omega
    rw [he] at hpos
    exact absurd hpos (by decide)
  · have hts : (tsSanitize isoNow).length = 24 := by rw [tsSanitize_length, h]
    have h50 := jsTake_length_le 50 (sanitizeName (jsTake 20 base ++ "-" ++ voice))
    have h8 := jsTake_length_le 8 (sha256Hex (strBytes base))
    simp only [String.length_append, hts]
    have hdash : ("-" : String).length = 1 := rfl
    have hmp3 : (".mp3" : String).length = 4 := rfl
    rw [hdash, hmp3]
    omega
  · have hts : (tsSanitize isoNow).length = 24 := by rw [tsSanitize_length, h]
    have h50 := jsTake_length_le 50 (sanitizeName (jsTake 20 base ++ "-" ++ voice))
    have h8 := jsTake_length_le 8 (sha256Hex (strBytes base))
    simp only [String.length_append, hts]
    have hdash : ("-" : String).length = 1 := rfl
    have hmp3 : (".mp3" : String).length = 4 := rfl
    rw [hdash, hmp3]
    omega
  · exact ⟨(jsTake 50 (sanitizeName (jsTake 20 base ++ "-" ++ voice)) ++ "-" ++
      jsTake 8 (sha256Hex (strBytes base)) ++ "-" ++ tsSanitize isoNow).data,
      (String.data_append _ _).symm⟩

/-- Witness for C10 at a concrete base, voice and clock reading. -/
theorem createSafeFileName_total_and_bounded_witness :
    ("2025-01-01T00:00:00.000Z" : String).length = 24 ∧
      ∃ name, createSafeFileName "2025-01-01T00:00:00.000Z" "Hello, World!" "Puck" = .ok name ∧
        name ≠ "" ∧ name.length ≤ 88 ∧ name.length < 255 ∧
        List.IsSuffix (".mp3").data name.data :=
  ⟨by decide,
    createSafeFileName_total_and_bounded "2025-01-01T00:00:00.000Z" "Hello, World!" "Puck"
      (by decide)⟩

/-! ## C7: resolution, validation, and failure before any remote call -/

/-- C7: on both the text and the media path, the voice candidate is
`request.voice || config.defaultVoice || random` and the language candidate
is `request.language || config.defaultLanguage || 'en-US'`; whenever the
voice (resp. language) candidate fails catalog validation, the call throws
`INVALID_VOICE` (resp. `INVALID_LANGUAGE`) — whose suggestion is the
case-insensitive prefix match when one exists, else the generic catalog
hint, per `invalidVoiceError`/`invalidLanguageError` — with a trace that
contains no remote call of any kind. -/
theorem resolver_validates_before_any_remote_call (env : Env) (cfg : Config) (fs : FS)
    (opts : TtsOptions) :
    (isValidVoice (voiceCandidate cfg opts env.randIdx) = false →
      (synthesizeFromFile env cfg fs opts =
        ⟨.error (invalidVoiceError (voiceCandidate cfg opts env.randIdx)),
          [.beforeSynthesize, .onError (invalidVoiceError (voiceCandidate cfg opts env.randIdx))],
          fs⟩) ∧
      ((mediaRequested opts || textTruthy opts.text) = true →
        synthesizeToBuffer env cfg fs opts =
          ⟨.error (invalidVoiceError (voiceCandidate cfg opts env.randIdx)),
            [.beforeSynthesize,
              .onError (invalidVoiceError (voiceCandidate cfg opts env.randIdx))],
            fs⟩) ∧
      hasRemoteEv [Ev.beforeSynthesize,
        Ev.onError (invalidVoiceError (voiceCandidate cfg opts env.randIdx))] = false) ∧
    (isValidVoice (voiceCandidate cfg opts env.randIdx) = true →
      isValidLanguage (languageCandidate cfg opts) = false →
      (synthesizeFromFile env cfg fs opts =
        ⟨.error (invalidLanguageError (languageCandidate cfg opts)),
          [.beforeSynthesize, .onError (invalidLanguageError (languageCandidate cfg opts))],
          fs⟩) ∧
      ((mediaRequested opts || textTruthy opts.text) = true →
        synthesizeToBuffer env cfg fs opts =
          ⟨.error (invalidLanguageError (languageCandidate cfg opts)),
            [.beforeSynthesize, .onError (invalidLanguageError (languageCandidate cfg opts))],
            fs⟩) ∧
      hasRemoteEv [Ev.beforeSynthesize,
        Ev.onError (invalidLanguageError (languageCandidate cfg opts))] = false) := by
  constructor
  · intro hv
    have hres := resolver_invalid_voice cfg env.randIdx opts hv
    refine ⟨?_, ?_, rfl⟩
    · simp [synthesizeFromFile, hres]
    · intro hmt
      cases hm : mediaRequested opts with
      | true => simp [synthesizeToBuffer, hm, synthesizeFromFile, hres]
      | false =>
        have htext : textTruthy opts.text = true := by simpa [hm] using hmt
        simp [synthesizeToBuffer, hm, htext, hres]
  · intro hv hl
    have hres := resolver_invalid_language cfg env.randIdx opts hv hl
    refine ⟨?_, ?_, rfl⟩
    · simp [synthesizeFromFile, hres]
    · intro hmt
      cases hm : mediaRequested opts with
      | true => simp [synthesizeToBuffer, hm, synthesizeFromFile, hres]
      | false =>
        have htext : textTruthy opts.text = true := by simpa [hm] using hmt
        simp [synthesizeToBuffer, hm, htext, hres]

/-- Witness for C7 at the specification scenario voice `NotARealVoice`. -/
theorem resolver_validates_before_any_remote_call_witness :
    isValidVoice "NotARealVoice" = false ∧
      synthesizeFromFile envBase cfgPlain [] optsBadVoice =
        ⟨.error (invalidVoiceError "NotARealVoice"),
          [.beforeSynthesize, .onError (invalidVoiceError "NotARealVoice")], []⟩ :=
  ⟨by decide,
    ((resolver_validates_before_any_remote_call envBase cfgPlain [] optsBadVoice).1
      (by decide)).1⟩

/-! ## C9: multimodal content assembly -/

/-- When every entry of the flattened file list resolves, the assembly loop
produces exactly one uri+mimeType part per entry, in sequence order. -/
theorem assembleFileParts_ok (env : Env) (fl : List FileRef)
    (hok : ∀ r ∈ fl, resolvedOk env r = true) :
    ∃ evs, assembleFileParts env fl = (.ok (fl.map (resolvedPart env)), evs) := by
  induction fl with
  | nil => exact ⟨[], rfl⟩
  | cons f rest ih =>
    obtain ⟨evs2, h2⟩ := ih (fun r hr => hok r (List.mem_cons_of_mem f hr))
    have hf := hok f (List.mem_cons_self f rest)
    cases f with
    | path s =>
      cases hresp : env.getFileResp s with
      | error e => simp [resolvedOk, hresp] at hf
      | ok raw =>
        have hmc : metaComplete raw = true := by simpa [resolvedOk, hresp] using hf
        refine ⟨[.remoteGetFile s] ++ evs2, ?_⟩
        simp [assembleFileParts, getFileOp, hresp, hmc, h2, resolvedPart]
    | meta m =>
      have hmc : metaComplete m = true := by simpa [resolvedOk] using hf
      refine ⟨evs2, ?_⟩
      simp [assembleFileParts, hmc, h2, resolvedPart]

/-- The trailing text parts, stated as the specification reads: the supplied
(truthy) prompt last, else the fixed default instruction when at least one
file is present. -/
theorem promptParts_eq (p : Option String) (fl : List FileRef) :
    promptParts p fl =
      (if strTruthy p then [ContentPart.textPart (p.getD "")]
       else if fl.isEmpty then [] else [ContentPart.textPart "Describe this file"]) := by
  cases hs : strTruthy p <;> cases he : fl.isEmpty <;> simp [promptParts, hs, he]

/-- C9: the media payload flattens `file` and `files` in order (dropping
falsy entries), contains one uri+mimeType part per resolved file in sequence
order, and ends with the supplied prompt, or with the fixed instruction
`Describe this file` when no prompt was supplied and at least one file is
present: the remote service is invoked with exactly that payload. -/
theorem content_assembly_order_and_default_prompt (env : Env) (cfg : Config) (fs : FS)
    (opts : TtsOptions)
    (hok : ∀ r ∈ buildFileList opts.file opts.files, resolvedOk env r = true)
    (hv : isValidVoice (voiceCandidate cfg opts env.randIdx) = true)
    (hl : isValidLanguage (languageCandidate cfg opts) = true) :
    buildFileList opts.file opts.files =
      ((match opts.file with | none => [] | some f => [f])
        ++ opts.files.getD []).filter refTruthy ∧
    Ev.remoteGenerate
        ((buildFileList opts.file opts.files).map (resolvedPart env)
          ++ (if strTruthy opts.prompt then [ContentPart.textPart (opts.prompt.getD "")]
              else if (buildFileList opts.file opts.files).isEmpty then []
              else [ContentPart.textPart "Describe this file"]))
        (voiceCandidate cfg opts env.randIdx)
      ∈ (synthesizeFromFile env cfg fs opts).trace := by
  refine ⟨rfl, ?_⟩
  obtain ⟨evs, hasm⟩ := assembleFileParts_ok env _ hok
  have hres := resolver_ok_of_valid cfg env.randIdx opts hv hl
  rw [← promptParts_eq]
  simp only [synthesizeFromFile, hres, hasm]
  cases hgen : env.generate
      ((buildFileList opts.file opts.files).map (resolvedPart env)
        ++ promptParts opts.prompt (buildFileList opts.file opts.files))
      (voiceCandidate cfg opts env.randIdx) with
  | error e => simp [hgen]
  | ok ob =>
    cases ob with
    | none => simp [hgen]
    | some bytes => simp [hgen]

/-- Witness for C9: an inline descriptor plus a store-resolved name, without
a prompt, produces the two file parts in order followed by the default
instruction. -/
theorem content_assembly_order_and_default_prompt_witness :
    Ev.remoteGenerate
        [ContentPart.fileData "uriA" "audio/mpeg", ContentPart.fileData "uri2" "audio/wav",
          ContentPart.textPart "Describe this file"] "Puck"
      ∈ (synthesizeFromFile envStore cfgPlain [] optsTwoFiles).trace :=
  (content_assembly_order_and_default_prompt envStore cfgPlain [] optsTwoFiles
    (by decide) (by decide) (by decide)).2

/-! ## C5: idempotence of cached text synthesis -/

/-- A non-empty text passes the source's text guard. -/
theorem textTruthy_of_ne_empty {t : String} (ht : t ≠ "") : textTruthy (some t) = true := by
  cases t with
  | mk d =>
    cases d with
    | nil => exact absurd rfl ht
    | cons c cs => rfl

/-- C5: with caching enabled and a cold cache, issuing the same text-only
request twice performs exactly one remote synthesis call. The first call
consults the cache (a miss) strictly before invoking the remote service and
writes the cache strictly after the fresh success; the second call is served
from the cache with the identical bytes and no remote call. -/
theorem cache_idempotence (env : Env) (cfg : Config) (fs : FS) (t v l : String)
    (bytes : List Nat)
    (hcu : cfg.useCache = true)
    (hv : isValidVoice v = true)
    (hl : isValidLanguage l = true)
    (ht : t ≠ "")
    (hgen : env.generate [ContentPart.textPart t] v = .ok (some bytes))
    (hmk : env.mkdirCacheFail = none)
    (hwc : env.writeCacheFail = none)
    (hcorr : env.corruptPaths.contains (cachePathOf cfg (getCacheKey t v l)) = false)
    (hcold : fsLookup fs (cachePathOf cfg (getCacheKey t v l)) = none) :
    synthesizeToBuffer env cfg fs ⟨some t, some v, none, some l, none, none, none⟩ =
      ⟨.ok ⟨bytes, v, l⟩,
        [.beforeSynthesize, .cacheRead (cachePathOf cfg (getCacheKey t v l)),
          .remoteGenerate [ContentPart.textPart t] v, .afterSynthesize bytes v l,
          .cacheWrite (cachePathOf cfg (getCacheKey t v l))],
        fsInsert fs (cachePathOf cfg (getCacheKey t v l)) bytes⟩ ∧
    synthesizeToBuffer env cfg (fsInsert fs (cachePathOf cfg (getCacheKey t v l)) bytes)
        ⟨some t, some v, none, some l, none, none, none⟩ =
      ⟨.ok ⟨bytes, v, l⟩,
        [.beforeSynthesize, .cacheRead (cachePathOf cfg (getCacheKey t v l))],
        fsInsert fs (cachePathOf cfg (getCacheKey t v l)) bytes⟩ ∧
    countRemoteGenerate
        ([.beforeSynthesize, .cacheRead (cachePathOf cfg (getCacheKey t v l)),
          .remoteGenerate [ContentPart.textPart t] v, .afterSynthesize bytes v l,
          .cacheWrite (cachePathOf cfg (getCacheKey t v l))] ++
          [.beforeSynthesize, .cacheRead (cachePathOf cfg (getCacheKey t v l))]) = 1 := by
  have htt : textTruthy (some t) = true := textTruthy_of_ne_empty ht
  have hvne := isValidVoice_ne_empty hv
  have hlne := isValidLanguage_ne_empty hl
  have hvc : voiceCandidate cfg ⟨some t, some v, none, some l, none, none, none⟩
      env.randIdx = v := by
    simp [voiceCandidate, jsOrStr, hvne]
  have hlc : languageCandidate cfg ⟨some t, some v, none, some l, none, none, none⟩ = l := by
    simp [languageCandidate, jsOrStr, hlne]
  have hres := resolver_ok_of_valid cfg env.randIdx
    ⟨some t, some v, none, some l, none, none, none⟩
    (by rw [hvc]; exact hv) (by rw [hlc]; exact hl)
  rw [hvc, hlc] at hres
  have hread1 : readFromCache env cfg fs (getCacheKey t v l) = none := by
    rw [readFromCache_of_useCache_true env cfg fs _ hcu, hcorr]
    simpa using hcold
  have hwrite : writeToCache env cfg fs (getCacheKey t v l) bytes =
      .ok (fsInsert fs (cachePathOf cfg (getCacheKey t v l)) bytes) := by
    unfold writeToCache
    rw [hcu, hmk, hwc]
    rfl
  have hread2 : readFromCache env cfg (fsInsert fs (cachePathOf cfg (getCacheKey t v l)) bytes)
      (getCacheKey t v l) = some bytes := by
    rw [readFromCache_of_useCache_true env cfg _ _ hcu, hcorr]
    simp [fsLookup_insert]
  refine ⟨?_, ?_, rfl⟩
  · simp [synthesizeToBuffer, mediaRequested, htt, hres, hcu, hread1, hgen, hwrite]
  · simp [synthesizeToBuffer, mediaRequested, htt, hres, hcu, hread2]

/-- Witness for C5 at the specification scenario request. -/
theorem cache_idempotence_witness :
    countRemoteGenerate
        ([.beforeSynthesize,
          .cacheRead (cachePathOf cfgCache (getCacheKey "Cache me" "Puck" "en-US")),
          .remoteGenerate [ContentPart.textPart "Cache me"] "Puck",
          .afterSynthesize [1, 2, 3] "Puck" "en-US",
          .cacheWrite (cachePathOf cfgCache (getCacheKey "Cache me" "Puck" "en-US"))] ++
          [.beforeSynthesize,
            .cacheRead (cachePathOf cfgCache (getCacheKey "Cache me" "Puck" "en-US"))]) = 1 :=
  (cache_idempotence envAudio123 cfgCache [] "Cache me" "Puck" "en-US" [1, 2, 3]
    rfl (by decide) (by decide) (by decide) rfl rfl rfl rfl rfl).2.2

/-! ## C8: transcoder conversion failure falls back to raw bytes -/

/-- A successful uncached text synthesis, used as the inner run of
`synthesizeToFile`. -/
theorem toBuffer_text_success (env : Env) (cfg : Config) (fs : FS) (t v l : String)
    (bytes : List Nat)
    (hcu : cfg.useCache = false)
    (hv : isValidVoice v = true)
    (hl : isValidLanguage l = true)
    (ht : t ≠ "")
    (hgen : env.generate [ContentPart.textPart t] v = .ok (some bytes)) :
    synthesizeToBuffer env cfg fs ⟨some t, some v, none, some l, none, none, none⟩ =
      ⟨.ok ⟨bytes, v, l⟩,
        [.beforeSynthesize, .remoteGenerate [ContentPart.textPart t] v,
          .afterSynthesize bytes v l],
        fs⟩ := by
  have htt : textTruthy (some t) = true := textTruthy_of_ne_empty ht
  have hvne := isValidVoice_ne_empty hv
  have hlne := isValidLanguage_ne_empty hl
  have hvc : voiceCandidate cfg ⟨some t, some v, none, some l, none, none, none⟩
      env.randIdx = v := by
    simp [voiceCandidate, jsOrStr, hvne]
  have hlc : languageCandidate cfg ⟨some t, some v, none, some l, none, none, none⟩ = l := by
    simp [languageCandidate, jsOrStr, hlne]
  have hres := resolver_ok_of_valid cfg env.randIdx
    ⟨some t, some v, none, some l, none, none, none⟩
    (by rw [hvc]; exact hv) (by rw [hlc]; exact hl)
  rw [hvc, hlc] at hres
  simp [synthesizeToBuffer, mediaRequested, htt, hres, hcu, hgen]

/-- `replace(/\.mp3$/, '.raw')` on a path ending in `.mp3` swaps the suffix. -/
theorem replaceSuffixMp3Raw_append (s : String) :
    replaceSuffixMp3Raw (s ++ ".mp3") = s ++ ".raw" := by
  have hsuf : (".mp3").data.isSuffixOf (s ++ ".mp3").data = true :=
    (List.isSuffixOf_iff_suffix).mpr ⟨s.data, (String.data_append _ _).symm⟩
  unfold replaceSuffixMp3Raw
  rw [hsuf]
  have hd : (s ++ ".mp3").data = s.data ++ (".mp3").data := String.data_append _ _
  simp only [if_pos rfl, hd]
  have hlen : (s.data ++ (".mp3").data).length - 4 = s.data.length := by
    simp [List.length_append]
  rw [hlen, List.take_left]
  rfl

/-- The final path and its transient `.raw` twin are distinct. -/
theorem append_mp3_ne_raw (s : String) : s ++ ".mp3" ≠ s ++ ".raw" := by
  intro h
  have hd := congrArg String.data h
  rw [String.data_append, String.data_append] at hd
  have h2 := List.append_cancel_left hd
  exact absurd h2 (by decide)

/-- C8: when the transcoder conversion fails after the raw bytes were written
to the transient path, `synthesizeToFile` still succeeds: the returned final
`.mp3` path holds the raw (uncompressed) bytes under the same final name,
and the transient raw file has been removed by the final cleanup. -/
theorem transcoder_failure_falls_back_to_raw (env : Env) (cfg : Config) (fs : FS)
    (t v l : String) (bytes : List Nat)
    (hcu : cfg.useCache = false)
    (hv : isValidVoice v = true)
    (hl : isValidLanguage l = true)
    (ht : t ≠ "")
    (hgen : env.generate [ContentPart.textPart t] v = .ok (some bytes))
    (hiso : env.isoNow.length = 24)
    (hmko : env.mkdirOutFail = none)
    (hwr : env.writeRawFail = none)
    (hffa : env.ffmpegAvailable = true)
    (hconv : env.ffmpegConvertOk = false)
    (hwf : env.writeFinalFail = none) :
    ∃ fp,
      (synthesizeToFile env cfg fs ⟨some t, some v, none, some l, none, none, none⟩).res
          = .ok ⟨fp, v, l⟩ ∧
      List.IsSuffix (".mp3").data fp.data ∧
      fsLookup (synthesizeToFile env cfg fs
          ⟨some t, some v, none, some l, none, none, none⟩).fs fp = some bytes ∧
      fsLookup (synthesizeToFile env cfg fs
          ⟨some t, some v, none, some l, none, none, none⟩).fs (replaceSuffixMp3Raw fp)
        = none := by
  have hbuf := toBuffer_text_success env cfg fs t v l bytes hcu hv hl ht hgen
  have hjsnone : ∀ c, jsOrStr none c = c := fun _ => rfl
  have hname : ∀ B V, createSafeFileName env.isoNow B V =
      .ok (jsTake 50 (sanitizeName (jsTake 20 B ++ "-" ++ V)) ++ "-" ++
        jsTake 8 (sha256Hex (strBytes B)) ++ "-" ++ tsSanitize env.isoNow ++ ".mp3") :=
    fun B V => createSafeFileName_ok env.isoNow B V hiso
  have hrun : synthesizeToFile env cfg fs ⟨some t, some v, none, some l, none, none, none⟩ =
      ⟨.ok ⟨cfg.outputDir ++ "/" ++
          (jsTake 50 (sanitizeName (jsTake 20 (jsOrStr (some (jsTake 40 t)) "output")
              ++ "-" ++ v)) ++ "-" ++
            jsTake 8 (sha256Hex (strBytes (jsOrStr (some (jsTake 40 t)) "output"))) ++ "-" ++
            tsSanitize env.isoNow ++ ".mp3"), v, l⟩,
        [.beforeSynthesize, .remoteGenerate [ContentPart.textPart t] v,
          .afterSynthesize bytes v l],
        fsErase
          (fsInsert
            (fsInsert fs
              (replaceSuffixMp3Raw (cfg.outputDir ++ "/" ++
                (jsTake 50 (sanitizeName (jsTake 20 (jsOrStr (some (jsTake 40 t)) "output")
                    ++ "-" ++ v)) ++ "-" ++
                  jsTake 8 (sha256Hex (strBytes (jsOrStr (some (jsTake 40 t)) "output")))
                  ++ "-" ++ tsSanitize env.isoNow ++ ".mp3")))
              bytes)
            (cfg.outputDir ++ "/" ++
              (jsTake 50 (sanitizeName (jsTake 20 (jsOrStr (some (jsTake 40 t)) "output")
                  ++ "-" ++ v)) ++ "-" ++
                jsTake 8 (sha256Hex (strBytes (jsOrStr (some (jsTake 40 t)) "output")))
                ++ "-" ++ tsSanitize env.isoNow ++ ".mp3"))
            bytes)
          (replaceSuffixMp3Raw (cfg.outputDir ++ "/" ++
            (jsTake 50 (sanitizeName (jsTake 20 (jsOrStr (some (jsTake 40 t)) "output")
                ++ "-" ++ v)) ++ "-" ++
              jsTake 8 (sha256Hex (strBytes (jsOrStr (some (jsTake 40 t)) "output")))
              ++ "-" ++ tsSanitize env.isoNow ++ ".mp3")))⟩ := by
    simp [synthesizeToFile, mediaRequested, hbuf, hmko, hname, hjsnone, hwr, hffa, hconv, hwf]
  refine ⟨cfg.outputDir ++ "/" ++
    (jsTake 50 (sanitizeName (jsTake 20 (jsOrStr (some (jsTake 40 t)) "output") ++ "-" ++ v))
      ++ "-" ++ jsTake 8 (sha256Hex (strBytes (jsOrStr (some (jsTake 40 t)) "output")))
      ++ "-" ++ tsSanitize env.isoNow ++ ".mp3"), ?_, ?_, ?_, ?_⟩
  · rw [hrun]
  · exact ⟨(cfg.outputDir ++ "/").data ++
      (jsTake 50 (sanitizeName (jsTake 20 (jsOrStr (some (jsTake 40 t)) "output") ++ "-" ++ v))
        ++ "-" ++ jsTake 8 (sha256Hex (strBytes (jsOrStr (some (jsTake 40 t)) "output")))
        ++ "-" ++ tsSanitize env.isoNow).data,
      by simp [String.data_append, List.append_assoc]⟩
  · rw [hrun]
    have hassoc : ((cfg.outputDir ++ "/") ++
        (jsTake 50 (sanitizeName (jsTake 20 (jsOrStr (some (jsTake 40 t)) "output") ++ "-" ++ v))
          ++ "-" ++ jsTake 8 (sha256Hex (strBytes (jsOrStr (some (jsTake 40 t)) "output")))
          ++ "-" ++ tsSanitize env.isoNow)) ++ ".mp3" =
        cfg.outputDir ++ "/" ++
        (jsTake 50 (sanitizeName (jsTake 20 (jsOrStr (some (jsTake 40 t)) "output") ++ "-" ++ v))
          ++ "-" ++ jsTake 8 (sha256Hex (strBytes (jsOrStr (some (jsTake 40 t)) "output")))
          ++ "-" ++ tsSanitize env.isoNow ++ ".mp3") := by
      simp only [String.append_assoc]
    have hne2 : (cfg.outputDir ++ "/" ++
        (jsTake 50 (sanitizeName (jsTake 20 (jsOrStr (some (jsTake 40 t)) "output") ++ "-" ++ v))
          ++ "-" ++ jsTake 8 (sha256Hex (strBytes (jsOrStr (some (jsTake 40 t)) "output")))
          ++ "-" ++ tsSanitize env.isoNow ++ ".mp3") ==
        replaceSuffixMp3Raw (cfg.outputDir ++ "/" ++
        (jsTake 50 (sanitizeName (jsTake 20 (jsOrStr (some (jsTake 40 t)) "output") ++ "-" ++ v))
          ++ "-" ++ jsTake 8 (sha256Hex (strBytes (jsOrStr (some (jsTake 40 t)) "output")))
          ++ "-" ++ tsSanitize env.isoNow ++ ".mp3"))) = false := by
      rw [← hassoc, replaceSuffixMp3Raw_append]
      exact beq_eq_false_iff_ne.mpr (append_mp3_ne_raw _)
    show fsLookup (fsErase (_ :: _ :: fs) _) _ = some bytes
    rw [fsErase_cons_ne _ _ _ hne2]
    exact fsLookup_cons_self _ _ _
  · rw [hrun]
    exact fsLookup_erase_self _ _

/-- Witness for C8 at a concrete conversion-failure run. -/
theorem transcoder_failure_falls_back_to_raw_witness :
    ∃ fp,
      (synthesizeToFile envConvFail cfgPlain []
          ⟨some "hi", some "Puck", none, some "en-US", none, none, none⟩).res
          = .ok ⟨fp, "Puck", "en-US"⟩ ∧
      List.IsSuffix (".mp3").data fp.data ∧
      fsLookup (synthesizeToFile envConvFail cfgPlain []
          ⟨some "hi", some "Puck", none, some "en-US", none, none, none⟩).fs fp
        = some [9, 9] ∧
      fsLookup (synthesizeToFile envConvFail cfgPlain []
          ⟨some "hi", some "Puck", none, some "en-US", none, none, none⟩).fs
          (replaceSuffixMp3Raw fp)
        = none :=
  transcoder_failure_falls_back_to_raw envConvFail cfgPlain [] "hi" "Puck" "en-US" [9, 9]
    rfl (by decide) (by decide) (by decide) rfl (by decide) rfl rfl rfl rfl rfl

/-! ## C4: onError invocations on failure paths -/

/-- Appending one `onError` event makes the count positive. -/
theorem countOnError_append_onError (tr : List Ev) (x : JsError) (rest : List Ev) :
    1 ≤ countOnError (tr ++ (.onError x :: rest)) := by
  simp [countOnError, List.countP_append, List.countP_cons]
  omega

/-- Every failing exit of the assembly loop either already invoked `onError`
(inside `getFile`) or is the inline `FILE_METADATA_ERROR` throw, which does
not invoke it. -/
theorem assembleFileParts_error (env : Env) (fl : List FileRef) (e : JsError) (evs : List Ev)
    (h : assembleFileParts env fl = (.error e, evs)) :
    1 ≤ countOnError evs ∨ e = fileMetaFieldsError := by
  induction fl generalizing e evs with
  | nil => simp [assembleFileParts] at h
  | cons f rest ih =>
    cases f with
    | meta m =>
      by_cases hmc : metaComplete m = true
      · simp only [assembleFileParts, hmc, if_true] at h
        cases hrec : assembleFileParts env rest with
        | mk r2 evs2 =>
          rw [hrec] at h
          cases r2 with
          | ok parts => simp at h
          | error e2 =>
            simp only [Prod.mk.injEq, Except.error.injEq, List.nil_append] at h
            obtain ⟨he, hevs⟩ := h
            subst he
            subst hevs
            exact ih _ _ hrec
      · have hmc2 : metaComplete m = false := by
          cases hb : metaComplete m with
          | false => rfl
          | true => exact absurd hb hmc
        simp only [assembleFileParts, hmc2, Bool.false_eq_true, if_false,
          Prod.mk.injEq, Except.error.injEq] at h
        right
        exact h.1.symm
    | path s =>
      cases hresp : env.getFileResp s with
      | error e2 =>
        simp only [assembleFileParts, getFileOp, hresp, Prod.mk.injEq,
          Except.error.injEq] at h
        obtain ⟨he, hevs⟩ := h
        subst he
        subst hevs
        left
        simp [countOnError, List.countP_cons]
      | ok raw =>
        by_cases hmc : metaComplete raw = true
        · simp only [assembleFileParts, getFileOp, hresp, hmc, if_true] at h
          cases hrec : assembleFileParts env rest with
          | mk r2 evs2 =>
            rw [hrec] at h
            cases r2 with
            | ok parts => simp at h
            | error e2 =>
              simp only [Prod.mk.injEq, Except.error.injEq] at h
              obtain ⟨he, hevs⟩ := h
              subst he
              subst hevs
              rcases ih _ _ hrec with h1 | h1
              · left
                simpa [countOnError, List.countP_append] using h1
              · right
                exact h1
        · have hmc2 : metaComplete raw = false := by
            cases hb : metaComplete raw with
            | false => rfl
            | true => exact absurd hb hmc
          simp only [assembleFileParts, getFileOp, hresp, hmc2, Bool.false_eq_true, if_false,
            Prod.mk.injEq, Except.error.injEq] at h
          obtain ⟨he, hevs⟩ := h
          subst he
          subst hevs
          left
          simp [countOnError, List.countP_cons]

/-- Every failing `synthesizeFromFile` call fires `onError` at least once
before propagating, except the inline metadata validation throw. -/
theorem synthesizeFromFile_onError (env : Env) (cfg : Config) (fs : FS) (opts : TtsOptions)
    (e : JsError)
    (h : (synthesizeFromFile env cfg fs opts).res = .error e) :
    1 ≤ countOnError (synthesizeFromFile env cfg fs opts).trace ∨ e = fileMetaFieldsError := by
  by_cases hv : isValidVoice (voiceCandidate cfg opts env.randIdx) = true
  · by_cases hl : isValidLanguage (languageCandidate cfg opts) = true
    · have hres := resolver_ok_of_valid cfg env.randIdx opts hv hl
      cases hasm : assembleFileParts env (buildFileList opts.file opts.files) with
      | mk r evs =>
        cases r with
        | error e2 =>
          have hfn : synthesizeFromFile env cfg fs opts =
              ⟨.error e2, [.beforeSynthesize] ++ evs, fs⟩ := by
            simp [synthesizeFromFile, hres, hasm]
          rw [hfn] at h ⊢
          simp only [Except.error.injEq] at h
          subst h
          rcases assembleFileParts_error env _ _ _ hasm with h1 | h1
          · left
            have h2 : countOnError ([Ev.beforeSynthesize] ++ evs) = countOnError evs := by
              simp [countOnError, List.countP_cons]
            rw [h2]
            exact h1
          · right
            exact h1
        | ok fileParts =>
          cases hgen : env.generate
              (fileParts ++ promptParts opts.prompt (buildFileList opts.file opts.files))
              (voiceCandidate cfg opts env.randIdx) with
          | error cause =>
            have hfn : synthesizeFromFile env cfg fs opts =
                ⟨.error (synthFileWrapError cause),
                  [.beforeSynthesize] ++ evs ++
                    [.remoteGenerate
                        (fileParts ++
                          promptParts opts.prompt (buildFileList opts.file opts.files))
                        (voiceCandidate cfg opts env.randIdx),
                      .onError (synthFileWrapError cause)],
                  fs⟩ := by
              simp [synthesizeFromFile, hres, hasm, hgen]
            rw [hfn]
            left
            simp [countOnError, List.countP_append, List.countP_cons]
          | ok ob =>
            cases ob with
            | some bytes =>
              have hfn : (synthesizeFromFile env cfg fs opts).res = .ok ⟨bytes,
                  voiceCandidate cfg opts env.randIdx, languageCandidate cfg opts⟩ := by
                simp [synthesizeFromFile, hres, hasm, hgen]
              rw [hfn] at h
              simp at h
            | none =>
              have hfn : synthesizeFromFile env cfg fs opts =
                  ⟨.error (synthFileWrapError noAudioError),
                    [.beforeSynthesize] ++ evs ++
                      [.remoteGenerate
                          (fileParts ++
                            promptParts opts.prompt (buildFileList opts.file opts.files))
                          (voiceCandidate cfg opts env.randIdx),
                        .onError noAudioError, .onError (synthFileWrapError noAudioError)],
                    fs⟩ := by
                simp [synthesizeFromFile, hres, hasm, hgen]
              rw [hfn]
              left
              simp [countOnError, List.countP_append, List.countP_cons]
    · have hl2 : isValidLanguage (languageCandidate cfg opts) = false :=
        Bool.not_eq_true _ ▸ (by simpa using hl)
      have hres := resolver_invalid_language cfg env.randIdx opts hv hl2
      have hfn : synthesizeFromFile env cfg fs opts =
          ⟨.error (invalidLanguageError (languageCandidate cfg opts)),
            [.beforeSynthesize, .onError (invalidLanguageError (languageCandidate cfg opts))],
            fs⟩ := by
        simp [synthesizeFromFile, hres]
      rw [hfn]
      left
      simp [countOnError, List.countP_cons]
  · have hv2 : isValidVoice (voiceCandidate cfg opts env.randIdx) = false := by
      simpa using hv
    have hres := resolver_invalid_voice cfg env.randIdx opts hv2
    have hfn : synthesizeFromFile env cfg fs opts =
        ⟨.error (invalidVoiceError (voiceCandidate cfg opts env.randIdx)),
          [.beforeSynthesize,
            .onError (invalidVoiceError (voiceCandidate cfg opts env.randIdx))],
          fs⟩ := by
      simp [synthesizeFromFile, hres]
    rw [hfn]
    left
    simp [countOnError, List.countP_cons]

/-- Every failing `synthesizeToBuffer` call fires `onError` at least once
before propagating, except (via the media path) the inline metadata throw. -/
theorem synthesizeToBuffer_onError (env : Env) (cfg : Config) (fs : FS) (opts : TtsOptions)
    (e : JsError)
    (h : (synthesizeToBuffer env cfg fs opts).res = .error e) :
    1 ≤ countOnError (synthesizeToBuffer env cfg fs opts).trace ∨ e = fileMetaFieldsError := by
  cases hm : mediaRequested opts with
  | true =>
    have hfn : synthesizeToBuffer env cfg fs opts = synthesizeFromFile env cfg fs opts := by
      simp [synthesizeToBuffer, hm]
    rw [hfn] at h ⊢
    exact synthesizeFromFile_onError env cfg fs opts e h
  | false =>
    cases htx : textTruthy opts.text with
    | false =>
      have hfn : synthesizeToBuffer env cfg fs opts =
          ⟨.error noTextError, [.beforeSynthesize, .onError noTextError], fs⟩ := by
        simp [synthesizeToBuffer, hm, htx]
      rw [hfn]
      left
      simp [countOnError, List.countP_cons]
    | true =>
      by_cases hv : isValidVoice (voiceCandidate cfg opts env.randIdx) = true
      · by_cases hl : isValidLanguage (languageCandidate cfg opts) = true
        · have hres := resolver_ok_of_valid cfg env.randIdx opts hv hl
          cases hcu : cfg.useCache with
          | false =>
            cases hgen : env.generate [ContentPart.textPart (opts.text.getD "")]
                (voiceCandidate cfg opts env.randIdx) with
            | error cause =>
              have hfn : synthesizeToBuffer env cfg fs opts =
                  ⟨.error (synthWrapError cause),
                    [.beforeSynthesize,
                      .remoteGenerate [ContentPart.textPart (opts.text.getD "")]
                        (voiceCandidate cfg opts env.randIdx),
                      .onError (synthWrapError cause)],
                    fs⟩ := by
                simp [synthesizeToBuffer, hm, htx, hres, hcu, hgen]
              rw [hfn]
              left
              simp [countOnError, List.countP_cons]
            | ok ob =>
              cases ob with
              | some bytes =>
                have hfn : (synthesizeToBuffer env cfg fs opts).res = .ok ⟨bytes,
                    voiceCandidate cfg opts env.randIdx, languageCandidate cfg opts⟩ := by
                  simp [synthesizeToBuffer, hm, htx, hres, hcu, hgen]
                rw [hfn] at h
                simp at h
              | none =>
                have hfn : synthesizeToBuffer env cfg fs opts =
                    ⟨.error (synthWrapError noAudioError),
                      [.beforeSynthesize,
                        .remoteGenerate [ContentPart.textPart (opts.text.getD "")]
                          (voiceCandidate cfg opts env.randIdx),
                        .onError noAudioError, .onError (synthWrapError noAudioError)],
                      fs⟩ := by
                  simp [synthesizeToBuffer, hm, htx, hres, hcu, hgen]
                rw [hfn]
                left
                simp [countOnError, List.countP_cons]
          | true =>
            cases hrd : readFromCache env cfg fs
                (getCacheKey (opts.text.getD "") (voiceCandidate cfg opts env.randIdx)
                  (languageCandidate cfg opts)) with
            | some cached =>
              have hfn : (synthesizeToBuffer env cfg fs opts).res = .ok ⟨cached,
                  voiceCandidate cfg opts env.randIdx, languageCandidate cfg opts⟩ := by
                simp [synthesizeToBuffer, hm, htx, hres, hcu, hrd]
              rw [hfn] at h
              simp at h
            | none =>
              cases hgen : env.generate [ContentPart.textPart (opts.text.getD "")]
                  (voiceCandidate cfg opts env.randIdx) with
              | error cause =>
                have hfn : synthesizeToBuffer env cfg fs opts =
                    ⟨.error (synthWrapError cause),
                      [.beforeSynthesize,
                        .cacheRead (cachePathOf cfg
                          (getCacheKey (opts.text.getD "")
                            (voiceCandidate cfg opts env.randIdx)
                            (languageCandidate cfg opts))),
                        .remoteGenerate [ContentPart.textPart (opts.text.getD "")]
                          (voiceCandidate cfg opts env.randIdx),
                        .onError (synthWrapError cause)],
                      fs⟩ := by
                  simp [synthesizeToBuffer, hm, htx, hres, hcu, hrd, hgen]
                rw [hfn]
                left
                simp [countOnError, List.countP_cons]
              | ok ob =>
                cases ob with
                | none =>
                  have hfn : synthesizeToBuffer env cfg fs opts =
                      ⟨.error (synthWrapError noAudioError),
                        [.beforeSynthesize,
                          .cacheRead (cachePathOf cfg
                            (getCacheKey (opts.text.getD "")
                              (voiceCandidate cfg opts env.randIdx)
                              (languageCandidate cfg opts))),
                          .remoteGenerate [ContentPart.textPart (opts.text.getD "")]
                            (voiceCandidate cfg opts env.randIdx),
                          .onError noAudioError, .onError (synthWrapError noAudioError)],
                        fs⟩ := by
                    simp [synthesizeToBuffer, hm, htx, hres, hcu, hrd, hgen]
                  rw [hfn]
                  left
                  simp [countOnError, List.countP_cons]
                | some bytes =>
                  cases hwt : writeToCache env cfg fs
                      (getCacheKey (opts.text.getD "") (voiceCandidate cfg opts env.randIdx)
                        (languageCandidate cfg opts)) bytes with
                  | error cause =>
                    have hfn : synthesizeToBuffer env cfg fs opts =
                        ⟨.error (synthWrapError cause),
                          [.beforeSynthesize,
                            .cacheRead (cachePathOf cfg
                              (getCacheKey (opts.text.getD "")
                                (voiceCandidate cfg opts env.randIdx)
                                (languageCandidate cfg opts))),
                            .remoteGenerate [ContentPart.textPart (opts.text.getD "")]
                              (voiceCandidate cfg opts env.randIdx),
                            .afterSynthesize bytes (voiceCandidate cfg opts env.randIdx)
                              (languageCandidate cfg opts),
                            .onError (synthWrapError cause)],
                          fs⟩ := by
                      simp [synthesizeToBuffer, hm, htx, hres, hcu, hrd, hgen, hwt]
                    rw [hfn]
                    left
                    simp [countOnError, List.countP_cons]
                  | ok fs2 =>
                    have hfn : (synthesizeToBuffer env cfg fs opts).res = .ok ⟨bytes,
                        voiceCandidate cfg opts env.randIdx, languageCandidate cfg opts⟩ := by
                      simp [synthesizeToBuffer, hm, htx, hres, hcu, hrd, hgen, hwt]
                    rw [hfn] at h
                    simp at h
        · have hl2 : isValidLanguage (languageCandidate cfg opts) = false := by simpa using hl
          have hres := resolver_invalid_language cfg env.randIdx opts hv hl2
          have hfn : synthesizeToBuffer env cfg fs opts =
              ⟨.error (invalidLanguageError (languageCandidate cfg opts)),
                [.beforeSynthesize,
                  .onError (invalidLanguageError (languageCandidate cfg opts))],
                fs⟩ := by
            simp [synthesizeToBuffer, hm, htx, hres]
          rw [hfn]
          left
          simp [countOnError, List.countP_cons]
      · have hv2 : isValidVoice (voiceCandidate cfg opts env.randIdx) = false := by
          simpa using hv
        have hres := resolver_invalid_voice cfg env.randIdx opts hv2
        have hfn : synthesizeToBuffer env cfg fs opts =
            ⟨.error (invalidVoiceError (voiceCandidate cfg opts env.randIdx)),
              [.beforeSynthesize,
                .onError (invalidVoiceError (voiceCandidate cfg opts env.randIdx))],
              fs⟩ := by
          simp [synthesizeToBuffer, hm, htx, hres]
        rw [hfn]
        left
        simp [countOnError, List.countP_cons]

/-- Every failing `synthesizeToFile` call fires `onError` at least once: its
outer catch re-invokes the hook on every error, including the inline
metadata throw that arrives from content assembly without a prior call. -/
theorem synthesizeToFile_onError (env : Env) (cfg : Config) (fs : FS) (opts : TtsOptions)
    (e : JsError)
    (h : (synthesizeToFile env cfg fs opts).res = .error e) :
    1 ≤ countOnError (synthesizeToFile env cfg fs opts).trace := by
  cases hin : (if mediaRequested opts then synthesizeFromFile env cfg fs opts
      else synthesizeToBuffer env cfg fs opts) with
  | mk r tr fsX =>
    cases r with
    | error e2 =>
      have hfn : synthesizeToFile env cfg fs opts = ⟨.error e2, tr ++ [.onError e2], fsX⟩ := by
        simp [synthesizeToFile, hin]
      rw [hfn]
      exact countOnError_append_onError tr e2 []
    | ok br =>
      cases hmo : env.mkdirOutFail with
      | some e2 =>
        have hfn : synthesizeToFile env cfg fs opts =
            ⟨.error e2, tr ++ [.onError e2], fsX⟩ := by
          simp [synthesizeToFile, hin, hmo]
        rw [hfn]
        exact countOnError_append_onError tr e2 []
      | none =>
        cases hcsf : createSafeFileName env.isoNow
            (jsOrStr opts.fileName
              (jsOrStr (opts.text.map (fun t => jsTake 40 t)) "output")) br.voice with
        | error e2 =>
          have hfn : synthesizeToFile env cfg fs opts =
              ⟨.error e2, tr ++ [.onError e2], fsX⟩ := by
            simp [synthesizeToFile, hin, hmo, hcsf]
          rw [hfn]
          exact countOnError_append_onError tr e2 []
        | ok fileName =>
          cases hwr : env.writeRawFail with
          | some e2 =>
            have hfn : synthesizeToFile env cfg fs opts =
                ⟨.error e2, tr ++ [.onError e2], fsX⟩ := by
              simp [synthesizeToFile, hin, hmo, hcsf, hwr]
            rw [hfn]
            exact countOnError_append_onError tr e2 []
          | none =>
            cases hffa : env.ffmpegAvailable with
            | false =>
              have hfn : synthesizeToFile env cfg fs opts =
                  ⟨.error noFfmpegError,
                    tr ++ [.onError noFfmpegError, .onError noFfmpegError],
                    fsErase (fsInsert fsX
                      (replaceSuffixMp3Raw (cfg.outputDir ++ "/" ++ fileName)) br.buffer)
                      (replaceSuffixMp3Raw (cfg.outputDir ++ "/" ++ fileName))⟩ := by
                simp [synthesizeToFile, hin, hmo, hcsf, hwr, hffa]
              rw [hfn]
              exact countOnError_append_onError tr noFfmpegError [.onError noFfmpegError]
            | true =>
              cases hcv : env.ffmpegConvertOk with
              | true =>
                have hfn : (synthesizeToFile env cfg fs opts).res =
                    .ok ⟨cfg.outputDir ++ "/" ++ fileName, br.voice, br.language⟩ := by
                  simp [synthesizeToFile, hin, hmo, hcsf, hwr, hffa, hcv]
                rw [hfn] at h
                simp at h
              | false =>
                cases hwf : env.writeFinalFail with
                | some e2 =>
                  have hfn : synthesizeToFile env cfg fs opts =
                      ⟨.error e2, tr ++ [.onError e2],
                        fsErase (fsInsert fsX
                          (replaceSuffixMp3Raw (cfg.outputDir ++ "/" ++ fileName)) br.buffer)
                          (replaceSuffixMp3Raw (cfg.outputDir ++ "/" ++ fileName))⟩ := by
                    simp [synthesizeToFile, hin, hmo, hcsf, hwr, hffa, hcv, hwf]
                  rw [hfn]
                  exact countOnError_append_onError tr e2 []
                | none =>
                  have hfn : (synthesizeToFile env cfg fs opts).res =
                      .ok ⟨cfg.outputDir ++ "/" ++ fileName, br.voice, br.language⟩ := by
                    simp [synthesizeToFile, hin, hmo, hcsf, hwr, hffa, hcv, hwf]
                  rw [hfn] at h
                  simp at h

/-- C4 (counterexample): a media request whose inline descriptor misses the
mandatory fields fails with `FILE_METADATA_ERROR` while the `onError` hook is
never invoked — the claim that every failure path invokes the hook exactly
once is false. -/
theorem onError_not_invoked_on_inline_metadata_failure :
    (synthesizeFromFile envNoAudio cfgPlain [] optsBadMeta).res = .error fileMetaFieldsError ∧
      countOnError (synthesizeFromFile envNoAudio cfgPlain [] optsBadMeta).trace = 0 :=
  ⟨rfl, rfl⟩

/-- C4 (amended): on every failure of the three public synthesis operations
the error still propagates to the caller; `onError` is invoked at least once
beforehand, except that `synthesizeToBuffer`/`synthesizeFromFile` propagate
the inline `FILE_METADATA_ERROR` of content assembly without invoking it
(`synthesizeToFile` recovers even that case through its outer catch). Some
paths invoke the hook more than once, so `exactly once` does not hold. -/
theorem onError_at_least_once_or_inline_metadata (env : Env) (cfg : Config) (fs : FS)
    (opts : TtsOptions) :
    (∀ e, (synthesizeToBuffer env cfg fs opts).res = .error e →
      1 ≤ countOnError (synthesizeToBuffer env cfg fs opts).trace ∨
        e = fileMetaFieldsError) ∧
    (∀ e, (synthesizeFromFile env cfg fs opts).res = .error e →
      1 ≤ countOnError (synthesizeFromFile env cfg fs opts).trace ∨
        e = fileMetaFieldsError) ∧
    (∀ e, (synthesizeToFile env cfg fs opts).res = .error e →
      1 ≤ countOnError (synthesizeToFile env cfg fs opts).trace) :=
  ⟨fun e h => synthesizeToBuffer_onError env cfg fs opts e h,
    fun e h => synthesizeFromFile_onError env cfg fs opts e h,
    fun e h => synthesizeToFile_onError env cfg fs opts e h⟩

/-- Witness for the amended C4 theorem on the `NO_TEXT` failure path. -/
theorem onError_at_least_once_or_inline_metadata_witness :
    1 ≤ countOnError (synthesizeToBuffer envBase cfgPlain [] optsEmpty).trace ∨
      noTextError = fileMetaFieldsError :=
  (onError_at_least_once_or_inline_metadata envBase cfgPlain [] optsEmpty).1
    noTextError rfl
